import Mathlib

/-!
Verification of the DTR Discovery Engine of the industry-core-hub backend.

The development shallowly embeds the relevant parts of
`managers/enablement_services/consumer/dtr/memory/dtr_consumer_memory_manager.py`
(the `DtrConsumerMemoryManager` class), of
`managers/addons_service/ecopass_kit/v1/discovery.py` and of
`controllers/fastapi/routers/addons/ecopass_kit/v1/discovery.py`.

Modelling conventions:
* Python dicts used as keyed maps become insertion-ordered association lists
  (`List (String × α)`); `d[k] = v` is `setVal`, `d.get(k)` is `findVal`,
  `del d[k]` is `delVal`, in-place field updates of a stored value are
  `modVal`.  Python dicts never hold duplicate keys, so well-formedness
  hypotheses (`Nodup` on the key list) appear where a theorem needs them.
* Python truthiness is modelled explicitly: `None` and the empty
  string / list / dict are falsy (`optStrTruthy`, `optNatTruthy`,
  `jsonTruthy`, ...).
* HTTP calls, connector negotiations, catalog requests, the SDK connection
  manager and wall-clock time are the environment: each is an explicit
  oracle field of an `Env` structure, and an operation that can raise is an
  oracle returning a `raise`-style constructor.  Thread fan-out in the
  source writes results into maps keyed by distinct keys, so the parallel
  sections are modelled by the corresponding sequential folds.
* Functions that can fall off the end of the Python function body (and thus
  return `None`) return an `Option`.
-/

set_option linter.unusedVariables false

namespace IchubDtr

/-! ## Association-list primitives (Python dict operations) -/

/-- `d.get(k)`: first binding of `k`, if any. -/
def findVal {α : Type} : List (String × α) → String → Option α
  | [], _ => none
  | (k', v) :: rest, k => if k' = k then some v else findVal rest k

/-- `d[k] = v`: replace the binding in place, else append (insertion order). -/
def setVal {α : Type} : List (String × α) → String → α → List (String × α)
  | [], k, v => [(k, v)]
  | (k', v') :: rest, k, v =>
    if k' = k then (k, v) :: rest else (k', v') :: setVal rest k v

/-- `del d[k]`: drop the first binding of `k`. -/
def delVal {α : Type} : List (String × α) → String → List (String × α)
  | [], _ => []
  | (k', v') :: rest, k => if k' = k then rest else (k', v') :: delVal rest k

/-- Update the value stored under `k` (no-op on absent keys; the source only
updates keys it has inserted). -/
def modVal {α : Type} (m : List (String × α)) (k : String) (f : α → α) :
    List (String × α) :=
  m.map (fun p => if p.1 = k then (p.1, f p.2) else p)

/-! ## Python truthiness -/

/-- Truthiness of an optional string: `None` and `""` are falsy. -/
def optStrTruthy : Option String → Bool
  | none => false
  | some s => !(s == "")

/-- Truthiness of an optional integer: `None` and `0` are falsy. -/
def optNatTruthy : Option Nat → Bool
  | none => false
  | some n => !(n == 0)

/-- A JSON object payload (opaque body; only identity and dict-truthiness
matter to the engine). -/
structure Json where
  fields : List (String × String)
deriving DecidableEq

/-- Truthiness of an optional JSON object: `None` and `{}` are falsy. -/
def jsonTruthy : Option Json → Bool
  | none => false
  | some j => !(j.fields.isEmpty)

/-! ## Python string operations

Implemented structurally over the character list so that concrete runs
evaluate inside the kernel.  Semantics follow the Python built-ins used by
the source (`str.split`, `str.startswith`, `in`, `str.replace`). -/

/-- Worker of `pySplit`: fuelled left-to-right split on a non-overlapping
separator occurrence. -/
def splitFuel (sep : List Char) : Nat → List Char → List Char → List (List Char)
  | _, [], cur => [cur.reverse]
  | 0, l, cur => [cur.reverse ++ l]
  | fuel + 1, c :: rest, cur =>
    if sep ≠ [] ∧ sep.isPrefixOf (c :: rest) then
      cur.reverse :: splitFuel sep fuel ((c :: rest).drop sep.length) []
    else splitFuel sep fuel rest (c :: cur)

/-- Python `s.split(sep)` for a non-empty separator. -/
def pySplit (s sep : String) : List String :=
  (splitFuel sep.data s.data.length s.data []).map String.mk

/-- Python `s.startswith(pre)`. -/
def pyStartsWith (s pre : String) : Bool := pre.data.isPrefixOf s.data

/-- Worker of `pyContains`. -/
def containsAux (pat : List Char) : List Char → Bool
  | [] => pat.isPrefixOf []
  | c :: rest => pat.isPrefixOf (c :: rest) || containsAux pat rest

/-- Python `pat in s`. -/
def pyContains (s pat : String) : Bool := containsAux pat.data s.data

/-- Worker of `pyReplace`. -/
def replaceFuel (pat rep : List Char) : Nat → List Char → List Char
  | _, [] => []
  | 0, l => l
  | fuel + 1, c :: rest =>
    if pat ≠ [] ∧ pat.isPrefixOf (c :: rest) then
      rep ++ replaceFuel pat rep fuel ((c :: rest).drop pat.length)
    else c :: replaceFuel pat rep fuel rest

/-- Python `s.replace(pat, rep)` (all occurrences, left to right). -/
def pyReplace (s pat rep : String) : String :=
  String.mk (replaceFuel pat.data rep.data s.data.length s.data)

/-- Join with a separator (used to model Python `split(sep, 1)` by splitting
fully and rejoining the tail). -/
def joinSep (sep : String) : List String → String
  | [] => ""
  | [x] => x
  | x :: y :: rest => x ++ sep ++ joinSep sep (y :: rest)

/-- `"pat" in s` for strings (Python substring membership). -/
def strContains (s pat : String) : Bool := pyContains s pat

/-! ## Submodel / shell descriptor data model

Shapes taken from the JSON the engine reads: a submodel descriptor carries an
optional `semanticId` object (a `keys` list of `{type, value}` entries) and a
list of `endpoints` with `protocolInformation.{href, subprotocolBody}`. -/

structure KeyObj where
  type : Option String
  value : Option String
deriving DecidableEq

structure SemanticIdObj where
  keys : List KeyObj
deriving DecidableEq

structure ProtocolInformation where
  href : Option String
  subprotocolBody : Option String
deriving DecidableEq

structure Endpoint where
  interface : Option String
  protocolInformation : Option ProtocolInformation
deriving DecidableEq

structure Submodel where
  id : Option String
  semanticId : Option SemanticIdObj
  endpoints : List Endpoint
deriving DecidableEq

structure Shell where
  id : Option String
  submodelDescriptors : List Submodel
deriving DecidableEq

/-- `DtrConsumerMemoryManager._extract_semantic_id`: value of the first key of
`semanticId.keys`, if the list is non-empty. -/
def extract_semantic_id (sd : Submodel) : Option String :=
  match sd.semanticId with
  | none => none
  | some obj =>
    match obj.keys with
    | [] => none
    | k :: _ => k.value

/-- `DtrConsumerMemoryManager._extract_all_semantic_ids`: every key of
`semanticId.keys` whose `type` and `value` are both truthy, as `(type, value)`
pairs. -/
def extract_all_semantic_ids (sd : Submodel) : List (String × String) :=
  match sd.semanticId with
  | none => []
  | some obj =>
    obj.keys.filterMap (fun k =>
      match k.type, k.value with
      | some t, some v => if t ≠ "" && v ≠ "" then some (t, v) else none
      | _, _ => none)

/-- `DtrConsumerMemoryManager._semantic_ids_match`: an empty target list never
matches; otherwise every target `(type, value)` pair must occur among the
submodel's pairs (set inclusion over the two lists). -/
def semantic_ids_match
    (submodel_semantic_ids target_semantic_ids : List (String × String)) : Bool :=
  if target_semantic_ids.isEmpty then false
  else target_semantic_ids.all (fun t => submodel_semantic_ids.contains t)

/-- `DtrConsumerMemoryManager._parse_subprotocol_body`: split on `;`, then each
part containing `=` is split at the first `=` into a key/value binding (later
bindings overwrite earlier ones, as in the source's dict). -/
def parse_subprotocol_body (body : String) : List (String × String) :=
  (pySplit body ";").foldl
    (fun acc part =>
      match pySplit part "=" with
      | k :: v :: rest => setVal acc k (joinSep "=" (v :: rest))
      | _ => acc)
    []

/-- Loop body of `_extract_submodel_endpoint_info`: first endpoint whose
`interface` contains `SUBMODEL-3.0` decides the triple; `href` has every
`urn:uuid:` occurrence removed when truthy, and `asset_id` / `connector_url`
come from the parsed `subprotocolBody` when it parses to a non-empty dict. -/
def endpoint_info_loop : List Endpoint → String × String × String
  | [] => ("unknown", "unknown", "unknown")
  | e :: rest =>
    if strContains ((e.interface).getD "") "SUBMODEL-3.0" then
      let href0 :=
        match e.protocolInformation with
        | none => "unknown"
        | some p => (p.href).getD "unknown"
      let href := if href0 == "" then href0 else pyReplace href0 "urn:uuid:" ""
      let body :=
        match e.protocolInformation with
        | none => ""
        | some p => (p.subprotocolBody).getD ""
      let parsed := parse_subprotocol_body body
      if body ≠ "" && !parsed.isEmpty then
        ((findVal parsed "id").getD "unknown",
         (findVal parsed "dspEndpoint").getD "unknown", href)
      else ("unknown", "unknown", href)
    else endpoint_info_loop rest

/-- `DtrConsumerMemoryManager._extract_submodel_endpoint_info`:
`(asset_id, connector_url, href)`, each `"unknown"` when not extractable. -/
def extract_submodel_endpoint_info (sd : Submodel) : String × String × String :=
  endpoint_info_loop sd.endpoints

/-! ## Policies, catalog datasets and the DTR asset test -/

/-- A policy document from `odrl:hasPolicy`: either a bare policy-id string or
an object given by its fields. -/
inductive Policy where
  | strP (s : String)
  | objP (fields : List (String × String))
deriving DecidableEq

/-- The value a dataset holds under a type property: absent, a plain string,
or an object carrying an optional `@id`. -/
inductive TypeVal where
  | absent
  | strT (s : String)
  | objT (atId : Option String)
deriving DecidableEq

/-- A DCAT dataset as read by the engine: its `@id`, the two type-property
slots `_is_dtr_asset` inspects (the compact `dct:type` key and the expanded
key derived from the configured `dct_type_key`), and its `odrl:hasPolicy`
normalised to a list. -/
structure Dataset where
  atId : String
  dctType : TypeVal
  dctTypeExpanded : TypeVal
  hasPolicy : List Policy
deriving DecidableEq

/-- Default `dct_type` configuration value. -/
def DCT_TYPE_URI : String := "https://w3id.org/catenax/taxonomy#DigitalTwinRegistry"

/-- One format check of `_is_dtr_asset`: a dict form matches when its `@id`
(default `""` for a missing property, i.e. the dict default `{}`) equals the
configured URI, a string form when it equals the URI itself. -/
def type_val_matches (tv : TypeVal) (dct_type : String) : Bool :=
  match tv with
  | .absent => "" == dct_type
  | .objT i => (i.getD "") == dct_type
  | .strT s => s == dct_type

/-- `DtrConsumerMemoryManager._is_dtr_asset` (default configuration): true when
either the compact or the expanded type property matches `dct_type`. -/
def is_dtr_asset (dct_type : String) (ds : Dataset) : Bool :=
  type_val_matches ds.dctType dct_type || type_val_matches ds.dctTypeExpanded dct_type

/-- Strip the `@id` / `@type` negotiation metadata from a policy object. -/
def clean_policy_fields (fs : List (String × String)) : List (String × String) :=
  fs.filter (fun p => p.1 ≠ "@id" && p.1 ≠ "@type")

/-- `DtrConsumerMemoryManager._extract_policies`: object policies are kept
without `@id`/`@type` (and dropped when nothing remains), string policies pass
through. -/
def extract_policies (ds : Dataset) : List Policy :=
  ds.hasPolicy.foldl
    (fun acc p =>
      match p with
      | .objP fs =>
        let c := clean_policy_fields fs
        if c.isEmpty then acc else acc ++ [Policy.objP c]
      | .strP s => acc ++ [Policy.strP s])
    []

/-- A catalog as consumed by `get_dtrs`: `error` is the truthiness of its
`error` key, `datasets` its (list-normalised) `dcat:dataset` entries. -/
structure Catalog where
  error : Bool
  datasets : List Dataset
deriving DecidableEq

/-! ## DTR cache state (`known_dtrs`, `shell_descriptors`) -/

/-- One cached DTR offering: `{connector_url, asset_id, policies}`
(`_create_dtr_cache_entry`). -/
structure DtrEntry where
  connector_url : String
  asset_id : String
  policies : List Policy
deriving DecidableEq

/-- The per-BPN cache shard: `known_dtrs[bpn]` holds the refresh timestamp and
the per-asset-id DTR dict.  `add_dtr` is the only writer creating shards and it
always sets both keys, so the model makes them mandatory fields. -/
structure BpnShard where
  refresh_at : Nat
  dtrs : List (String × DtrEntry)
deriving DecidableEq

/-- The manager's mutable state: the per-BPN DTR cache and the central shell
descriptor index. -/
structure MgrState where
  known_dtrs : List (String × BpnShard)
  shell_descriptors : List (String × Shell)
deriving DecidableEq

/-- Manager configuration: `logger` presence and `verbose` flag (these gate
behaviour in the source, see `get_dtrs`), cache `expiration_time`, and the
catalog filter configuration (`dct_type_key` defaults in the source to a
quoted JSON-LD path whose literal text is irrelevant to every claim). -/
structure MgrConfig where
  hasLogger : Bool
  verbose : Bool
  expiration_time : Nat
  dct_type_key : String
  operator : String
  dct_type : String
deriving DecidableEq

/-- `DtrConsumerMemoryManager.add_dtr`: refresh the shard's expiry timestamp
unconditionally, then insert the entry unless the `asset_id` is already
cached (duplicate insert is a no-op apart from the refreshed expiry). -/
def add_dtr (now expiration_time : Nat) (st : MgrState)
    (bpn connector_url asset_id : String) (policies : List Policy) : MgrState :=
  let shard0 := (findVal st.known_dtrs bpn).getD { refresh_at := 0, dtrs := [] }
  let shard1 := { shard0 with refresh_at := now + expiration_time }
  if (findVal shard1.dtrs asset_id).isSome then
    { st with known_dtrs := setVal st.known_dtrs bpn shard1 }
  else
    { st with
      known_dtrs :=
        setVal st.known_dtrs bpn
          { shard1 with
            dtrs := setVal shard1.dtrs asset_id
              { connector_url := connector_url, asset_id := asset_id,
                policies := policies } } }

/-- `DtrConsumerMemoryManager.purge_bpn`: drop the whole shard. -/
def purge_bpn (st : MgrState) (bpn : String) : MgrState :=
  { st with known_dtrs := delVal st.known_dtrs bpn }

/-- `DtrConsumerMemoryManager._is_cache_expired`: a missing shard is expired;
otherwise the shard is expired once its refresh timestamp has been reached. -/
def is_cache_expired (now : Nat) (st : MgrState) (bpn : String) : Bool :=
  match findVal st.known_dtrs bpn with
  | none => true
  | some shard => decide (shard.refresh_at ≤ now)

/-- Environment of a `get_dtrs` discovery: the current time, the connector
list for the BPN (`none` models `get_connectors` raising) and the catalog each
connector returned (`none` models that connector's catalog thread raising). -/
structure DiscoveryEnv where
  now : Nat
  connectors : Option (List String)
  catalog : String → Option Catalog

/-- Fold of the catalog-iteration section of `get_dtrs`: for every catalog
without an `error` key, add every DTR dataset with a non-empty `@id` to the
cache. -/
def get_dtrs_scan (env : DiscoveryEnv) (cfg : MgrConfig) (bpn : String)
    (catalogs : List (String × Catalog)) (st : MgrState) : MgrState :=
  catalogs.foldl
    (fun acc p =>
      if !p.2.error then
        p.2.datasets.foldl
          (fun acc2 ds =>
            if is_dtr_asset cfg.dct_type ds then
              if ds.atId == "" then acc2
              else add_dtr env.now cfg.expiration_time acc2 bpn p.1 ds.atId
                (extract_policies ds)
            else acc2)
          acc
      else acc)
    st

/-- `DtrConsumerMemoryManager.get_dtrs`.  Fresh non-empty cache shards are
served directly.  Otherwise the source's entire re-discovery block sits inside
`if (self.logger and self.verbose):`, so a manager without a logger or without
`verbose` falls off the end of the function and returns `None` (modelled as
`none`).  With a verbose logger, connectors are listed, catalogs fetched, DTR
datasets added via `add_dtr`, and the cached list (possibly `[]`) returned;
any exception yields `[]`. -/
def get_dtrs (env : DiscoveryEnv) (cfg : MgrConfig) (st : MgrState)
    (bpn : String) : Option (List DtrEntry) × MgrState :=
  let cached : Option (List DtrEntry) :=
    match findVal st.known_dtrs bpn with
    | some shard =>
      if is_cache_expired env.now st bpn then none
      else if shard.dtrs.length > 0 then some (shard.dtrs.map Prod.snd)
      else none
    | none => none
  match cached with
  | some l => (some l, st)
  | none =>
    if cfg.hasLogger && cfg.verbose then
      match env.connectors with
      | none => (some [], st)
      | some cs =>
        if cs.isEmpty then (some [], st)
        else
          let catalogs : List (String × Catalog) :=
            cs.filterMap (fun u => (env.catalog u).map (fun c => (u, c)))
          let st1 := get_dtrs_scan env cfg bpn catalogs st
          match findVal st1.known_dtrs bpn with
          | some shard => (some (shard.dtrs.map Prod.snd), st1)
          | none => (some [], st1)
    else (none, st)

/-! ## Shell lookup with retry (`_process_dtr_with_retry`, `_delete_connection`) -/

/-- The catalog filter expression `get_filter_expression(key, operator, value)`
used for DTR negotiation. -/
structure FilterExpr where
  key : String
  operator : String
  value : String
deriving DecidableEq

/-- Outcome of one attempt against a DTR: the `do_dsp` negotiation or the
lookup POST raised, or the POST answered with an HTTP status, a `result` list
of shell uuids and the `paging_metadata` cursor. -/
inductive AttemptOutcome where
  | raiseExc (msg : String)
  | http (code : Nat) (result_ids : List String) (cursor : Option String)
deriving DecidableEq

/-- Observable calls into the SDK connection manager. -/
inductive ConnEvent where
  | del_conn (counter_party_id counter_party_address : String)
      (query : FilterExpr) (policies : List Policy)
deriving DecidableEq

/-- Environment of `discover_shells`: the `get_dtrs` discovery environment,
the outcome of each DTR attempt (keyed by the DTR asset id, the attempt
number, and the limit/cursor pair the lookup URL would carry), and the shell
descriptor each `GET /shell-descriptors/{base64(uuid)}` returns. -/
structure ShellsEnv where
  disc : DiscoveryEnv
  attempt : String → Nat → Option Nat → Option String → AttemptOutcome
  fetchShell : String → Option Shell

/-- Cache half of `_delete_connection`: after evicting the SDK connection,
the DTR entry is removed from `known_dtrs[bpn]` (on every call, not just on
the terminal attempt). -/
def delete_connection_mgr (st : MgrState) (bpn asset_id : String) : MgrState :=
  match findVal st.known_dtrs bpn with
  | none => st
  | some shard =>
    { st with
      known_dtrs := setVal st.known_dtrs bpn
        { shard with dtrs := delVal shard.dtrs asset_id } }

/-- The per-DTR result dict built by `_process_dtr_with_retry`
(`paging_cursor` stands for `paging_metadata.get("cursor")`, the only part of
the paging metadata the caller reads). -/
structure DtrProcessResult where
  connectorUrl : String
  assetId : String
  status : String
  shellsFound : Nat
  shells : List String
  paging_cursor : Option String
  error : Option String
deriving DecidableEq

/-- Store fetched shell descriptors in the central index, keyed by their
truthy `id`. -/
def store_shells (m : List (String × Shell)) (shells : List Shell) :
    List (String × Shell) :=
  shells.foldl
    (fun acc sh =>
      match sh.id with
      | some sid => if sid ≠ "" then setVal acc sid sh else acc
      | none => acc)
    m

/-- Retry loop of `_process_dtr_with_retry`: on a 200 the fetched shells are
indexed and the result marked `connected`; on any other status or an
exception, `_delete_connection` evicts the SDK connection and drops the DTR
from the cache, and the `error` field is set only when no attempts remain. -/
def process_dtr_loop (env : ShellsEnv) (cpid connector_url asset_id : String)
    (policies : List Policy) (fexpr : FilterExpr) (limit : Option Nat)
    (cursor : Option String) (max_retries : Nat) :
    Nat → Nat → MgrState → List ConnEvent → DtrProcessResult →
    DtrProcessResult × MgrState × List ConnEvent
  | attempt, remaining, st, evs, cur =>
    let fail := fun (msg : String) =>
      let st' := delete_connection_mgr st cpid asset_id
      let evs' := evs ++ [ConnEvent.del_conn cpid connector_url fexpr policies]
      match remaining with
      | 0 => ({ cur with error := some msg }, st', evs')
      | r + 1 =>
        process_dtr_loop env cpid connector_url asset_id policies fexpr limit
          cursor max_retries (attempt + 1) r st' evs' cur
    match env.attempt asset_id attempt limit cursor with
    | .http code ids pcursor =>
      if code == 200 then
        let shells := ids.filterMap env.fetchShell
        ({ cur with
            status := "connected", shellsFound := ids.length, shells := ids,
            paging_cursor := pcursor },
         { st with shell_descriptors := store_shells st.shell_descriptors shells },
         evs)
      else
        fail ("HTTP " ++ toString code ++ " after " ++
          toString (max_retries + 1) ++ " attempts")
    | .raiseExc msg => fail msg

/-- The effective policies of `_process_dtr_with_retry`: the caller-provided
`dtr_policies` when truthy, else the DTR's cached policies. -/
def effective_policies (dtr_policies : Option (List Policy)) (dtr : DtrEntry) :
    List Policy :=
  match dtr_policies with
  | some ps => if ps.isEmpty then dtr.policies else ps
  | none => dtr.policies

/-- The DTR-lookup filter expression built from the manager configuration. -/
def mkFexpr (cfg : MgrConfig) : FilterExpr :=
  { key := cfg.dct_type_key, operator := cfg.operator, value := cfg.dct_type }

/-- `DtrConsumerMemoryManager._process_dtr_with_retry`.  `query_spec` is the
POSTed body; the upstream answer to it is the environment's `attempt`
oracle. -/
def process_dtr_with_retry (env : ShellsEnv) (cfg : MgrConfig) (st : MgrState)
    (cpid : String) (dtr : DtrEntry) (query_spec : List (String × String))
    (dtr_policies : Option (List Policy)) (max_retries : Nat := 2)
    (limit : Option Nat := none) (cursor : Option String := none) :
    DtrProcessResult × MgrState × List ConnEvent :=
  if (effective_policies dtr_policies dtr).isEmpty then
    ({ connectorUrl := dtr.connector_url, assetId := dtr.asset_id,
       status := "failed", shellsFound := 0, shells := [],
       paging_cursor := none,
       error := some "No DTR policies provided and no cached policies available" },
     st, [])
  else
    process_dtr_loop env cpid dtr.connector_url dtr.asset_id
      (effective_policies dtr_policies dtr) (mkFexpr cfg) limit cursor
      max_retries 0 max_retries st []
      { connectorUrl := dtr.connector_url, assetId := dtr.asset_id,
        status := "failed", shellsFound := 0, shells := [],
        paging_cursor := none, error := none }

/-! ## Pagination manager

Modelled from the spec: the source file
`managers/enablement_services/consumer/dtr/pagination_manager.py` is not part
of the provided sources (only its import and call sites are), so
`PageState`, `DtrPaginationState` and the four `PaginationManager` operations
follow spec section 4.3: `encode_page_token` / `decode_page_token` form an
inverse pair (tokens are modelled as the page states themselves),
`distribute_limit` divides the budget by ceiling division,
`is_cursor_compatible` fails exactly when the cursor carries a different
limit, and `has_more_data` holds when some DTR state is not exhausted. -/

structure DtrPaginationState where
  asset_id : String
  cursor : Option String := none
  exhausted : Bool := false
deriving DecidableEq

inductive PageState where
  | mk (dtr_states : List (String × DtrPaginationState)) (page_number : Nat)
      (limit : Option Nat) (previous_state : Option PageState)

def PageState.dtr_states : PageState → List (String × DtrPaginationState)
  | .mk s _ _ _ => s

def PageState.page_number : PageState → Nat
  | .mk _ n _ _ => n

def PageState.limit : PageState → Option Nat
  | .mk _ _ l _ => l

def PageState.previous_state : PageState → Option PageState
  | .mk _ _ _ p => p

/-- Modelled from the spec: opaque page tokens are the page states. -/
def encode_page_token (p : PageState) : PageState := p

/-- Modelled from the spec: inverse of `encode_page_token`. -/
def decode_page_token (p : PageState) : PageState := p

/-- Modelled from the spec: ceiling division of the limit budget. -/
def distribute_limit (total active : Nat) : Nat := (total + active - 1) / active

/-- Modelled from the spec: a cursor is compatible iff it carries the
requested limit. -/
def is_cursor_compatible (p : PageState) (limit : Option Nat) : Bool :=
  p.limit == limit

/-- Modelled from the spec: more data iff some DTR state is not exhausted. -/
def has_more_data (states : List (String × DtrPaginationState)) : Bool :=
  states.any (fun p => !p.2.exhausted)

/-! ## `discover_shells` -/

/-- Pagination block of a `discover_shells` response. -/
structure PaginationInfo where
  page : Nat
  next : Option PageState
  previous : Option PageState

/-- A `discover_shells` response.  The source's early-error dicts carry fewer
keys (and once use the key `shell_descriptors` instead of
`shellDescriptors`); the model uses one structure with empty defaults. -/
structure ShellsResponse where
  shellDescriptors : List Shell
  dtrs : List DtrProcessResult
  shellsFound : Nat
  error : Option String
  pagination : Option PaginationInfo

/-- The cursor-mismatch message of `discover_shells` (its machine-readable
token is the trailing `LIMIT_MISMATCH` line). -/
def showOptNat : Option Nat → String
  | none => "None"
  | some n => toString n

def limit_mismatch_msg (cursor_limit req_limit : Option Nat) : String :=
  "Cursor was created with limit " ++ showOptNat cursor_limit ++
  " but request has limit " ++ showOptNat req_limit ++
  ". Please start pagination from the beginning." ++ "\n" ++ "LIMIT_MISMATCH"

/-- `limit or 50`. -/
def pyOrNat (l : Option Nat) (d : Nat) : Nat :=
  match l with
  | some n => if n == 0 then d else n
  | none => d

/-- The DTR loop of `discover_shells`: skip exhausted DTRs, process the rest
through `_process_dtr_with_retry`, record each DTR's new cursor state, and
stop early (truncating the shell list) once a truthy `limit` is reached. -/
def shells_loop (env : ShellsEnv) (cfg : MgrConfig) (cpid : String)
    (query_spec : List (String × String)) (dtr_policies : Option (List Policy))
    (limit : Option Nat) (per_dtr_limit : Option Nat)
    (states : List (String × DtrPaginationState)) :
    List DtrEntry → MgrState → List String → List DtrProcessResult →
    List (String × DtrPaginationState) → List ConnEvent →
    List String × List DtrProcessResult × List (String × DtrPaginationState) ×
      MgrState × List ConnEvent
  | [], st, all_shells, results, new_states, evs =>
    (all_shells, results, new_states, st, evs)
  | d :: rest, st, all_shells, results, new_states, evs =>
    let aid := d.asset_id
    let dstate := (findVal states aid).getD { asset_id := aid }
    if dstate.exhausted then
      shells_loop env cfg cpid query_spec dtr_policies limit per_dtr_limit states
        rest st all_shells results (setVal new_states aid dstate) evs
    else
      match process_dtr_with_retry env cfg st cpid d query_spec dtr_policies 2
          per_dtr_limit dstate.cursor with
      | (res, st', evs') =>
        let all_shells' := all_shells ++ res.shells
        let results' := results ++ [res]
        let new_states' := setVal new_states aid
          { asset_id := aid, cursor := res.paging_cursor,
            exhausted := !(optStrTruthy res.paging_cursor) }
        if optNatTruthy limit && decide (limit.getD 0 ≤ all_shells'.length) then
          (all_shells'.take (limit.getD 0), results', new_states', st', evs ++ evs')
        else
          shells_loop env cfg cpid query_spec dtr_policies limit per_dtr_limit
            states rest st' all_shells' results' new_states' (evs ++ evs')

/-- `DtrConsumerMemoryManager.discover_shells`. -/
def discover_shells (env : ShellsEnv) (cfg : MgrConfig) (st : MgrState)
    (cpid : String) (query_spec : List (String × String))
    (dtr_policies : Option (List Policy)) (limit : Option Nat)
    (cursor : Option PageState) :
    ShellsResponse × MgrState × List ConnEvent :=
  match get_dtrs env.disc cfg st cpid with
  | (dtrsOpt, st1) =>
    let dtrsList := dtrsOpt.getD []
    if dtrsList.isEmpty then
      ({ shellDescriptors := [], dtrs := [], shellsFound := 0,
         error := some "No DTRs found", pagination := none }, st1, [])
    else
      let decoded : Except String PageState :=
        match cursor with
        | some tok =>
          let cp := decode_page_token tok
          if !is_cursor_compatible cp limit then
            .error (limit_mismatch_msg cp.limit limit)
          else .ok cp
        | none => .ok (PageState.mk [] 0 limit none)
      match decoded with
      | .error m =>
        ({ shellDescriptors := [], dtrs := [], shellsFound := 0,
           error := some m, pagination := none }, st1, [])
      | .ok current_page =>
        let active :=
          (dtrsList.filter (fun d =>
            !((findVal current_page.dtr_states d.asset_id).getD
                { asset_id := "" }).exhausted)).length
        let per_dtr_limit :=
          if optNatTruthy limit then some (distribute_limit (pyOrNat limit 50) active)
          else none
        match shells_loop env cfg cpid query_spec dtr_policies limit per_dtr_limit
            current_page.dtr_states dtrsList st1 [] [] [] [] with
        | (all_shells, dtr_results, new_states, st2, evs) =>
          let new_page := PageState.mk new_states (current_page.page_number + 1)
            limit (some current_page)
          let shell_descriptors :=
            all_shells.filterMap (fun sid => findVal st2.shell_descriptors sid)
          let pagination_enabled := limit.isSome || cursor.isSome
          let base : ShellsResponse :=
            { shellDescriptors := shell_descriptors, dtrs := dtr_results,
              shellsFound := shell_descriptors.length, error := none,
              pagination := none }
          if pagination_enabled then
            let next_cursor :=
              if has_more_data new_states then some (encode_page_token new_page)
              else none
            let previous_cursor :=
              match current_page.previous_state with
              | some p => some (encode_page_token p)
              | none =>
                if current_page.page_number > 0 then
                  some (encode_page_token
                    (PageState.mk [] (current_page.page_number - 1) limit none))
                else none
            ({ base with
                pagination := some
                  { page := new_page.page_number, next := next_cursor,
                    previous := previous_cursor } }, st2, evs)
          else (base, st2, evs)

/-! ## Submodel fetch pipeline (`discover_submodels` and helpers) -/

/-- The entries of a response's `submodelDescriptors` map. The source
additionally stores a `semanticIdKeys` base64 blob; no claim reads it and it
is omitted. -/
structure SubmodelDescriptor where
  submodelId : String
  semanticId : Option String
  assetId : String
  connectorUrl : String
  href : String
  status : String
  error : Option String
deriving DecidableEq

/-- A queued `submodels_to_fetch` item. -/
structure SubmodelInfo where
  submodel_id : String
  semantic_id : Option String
  policies : List Policy
  assetId : String
  connectorUrl : String
  href : String
deriving DecidableEq

/-- DTR connection info attached to submodel responses. -/
structure DtrInfo where
  connectorUrl : String
  assetId : String
deriving DecidableEq

/-- A `discover_submodels` / `discover_submodel_by_semantic_ids` response. -/
structure SubmodelsResponse where
  submodelDescriptors : List (String × SubmodelDescriptor)
  submodels : List (String × Json)
  submodelsFound : Nat
  dtr : Option DtrInfo
  error : Option String
deriving DecidableEq

/-- Governance for the batch case: a map from semantic id to policies
(`None` / `{}` are falsy). -/
def govTruthy (g : Option (List (String × List Policy))) : Bool :=
  match g with
  | none => false
  | some l => !l.isEmpty

/-- `DtrConsumerMemoryManager._determine_submodel_status` (batch case). -/
def determine_submodel_status (semantic_id : Option String)
    (governance : Option (List (String × List Policy))) : String :=
  if !optStrTruthy semantic_id then "error"
  else if !govTruthy governance ||
      (findVal (governance.getD []) (semantic_id.getD "")).isNone then
    "governance_not_found"
  else "pending"

/-- `DtrConsumerMemoryManager._determine_single_submodel_status`. -/
def determine_single_submodel_status (semantic_id : Option String)
    (governance : Option (List Policy)) : String :=
  if !optStrTruthy semantic_id then "error"
  else
    match governance with
    | none => "governance_not_found"
    | some g => if g.isEmpty then "governance_not_found" else "pending"

/-- Generic error marking used by the pipeline: set `status` to `error` with
the given message. -/
def errorify (msg : String) (d : SubmodelDescriptor) : SubmodelDescriptor :=
  { d with status := "error", error := some msg }

/-- The generic negotiation-failure diagnostic. -/
def negGenericMsg : String :=
  "Asset negotiation failed. You may not have enough access permissions to this submodel."

/-- Per-asset negotiation bucket built by `_group_submodels_by_asset`. -/
structure AssetInfo where
  connectorUrl : String
  policies : List Policy
  submodels : List SubmodelInfo
deriving DecidableEq

/-- `DtrConsumerMemoryManager._group_submodels_by_asset`: bucket queued items
by `assetId`, skipping falsy/`"unknown"` asset ids; a bucket keeps the
connector URL and policies of its first item. -/
def group_submodels_by_asset (items : List SubmodelInfo) :
    List (String × AssetInfo) :=
  items.foldl
    (fun acc item =>
      if item.assetId ≠ "" && item.assetId ≠ "unknown" then
        match findVal acc item.assetId with
        | none =>
          acc ++ [(item.assetId,
            { connectorUrl := item.connectorUrl, policies := item.policies,
              submodels := [item] })]
        | some info =>
          setVal acc item.assetId { info with submodels := info.submodels ++ [item] }
      else acc)
    []

/-- Outcome of one `_negotiate_asset` call: the negotiation raised, or it
returned an access token (which may itself be falsy). -/
inductive NegOutcome where
  | raiseExc (msg : String)
  | ret (token : Option String)
deriving DecidableEq

/-- Environment of the batch pipeline: each distinct asset's negotiation
outcome and each data fetch's payload (`_fetch_submodel_data_with_token`
catches its own exceptions and returns `None`, hence no raise case). -/
structure BatchEnv where
  negotiateAsset : String → NegOutcome
  fetchData : String → String → String → Option Json

/-- `DtrConsumerMemoryManager._negotiate_assets_parallel`: one negotiation per
grouped asset; truthy tokens land in the token map, falsy tokens yield the
generic diagnostic and exceptions the generic diagnostic with the exception
text appended. -/
def negotiate_assets_parallel (env : BatchEnv)
    (grouped : List (String × AssetInfo)) :
    List (String × String) × List (String × String) :=
  grouped.foldl
    (fun acc p =>
      match env.negotiateAsset p.1 with
      | .ret tok =>
        if optStrTruthy tok then (acc.1 ++ [(p.1, tok.getD "")], acc.2)
        else (acc.1, acc.2 ++ [(p.1, negGenericMsg)])
      | .raiseExc m => (acc.1, acc.2 ++ [(p.1, negGenericMsg ++ " " ++ m)]))
    ([], [])

/-- `DtrConsumerMemoryManager._mark_failed_negotiations`: every descriptor of
every asset without a token is marked `error` with that asset's diagnostic. -/
def mark_failed_negotiations (grouped : List (String × AssetInfo))
    (tokens errors : List (String × String)) (resp : SubmodelsResponse) :
    SubmodelsResponse :=
  (grouped.filter (fun p => (findVal tokens p.1).isNone)).foldl
    (fun r p =>
      let msg := (findVal errors p.1).getD negGenericMsg
      p.2.submodels.foldl
        (fun r2 item =>
          { r2 with
            submodelDescriptors :=
              modVal r2.submodelDescriptors item.submodel_id (errorify msg) })
        r)
    resp

/-- `DtrConsumerMemoryManager._fetch_data_parallel`: fetch every queued item
whose asset has a token; truthy data gives `success` and is stored under
`submodels`, falsy data gives a fetch error. -/
def fetch_data_parallel (env : BatchEnv) (items : List SubmodelInfo)
    (tokens : List (String × String)) (resp : SubmodelsResponse) :
    SubmodelsResponse :=
  (items.filter (fun it => (findVal tokens it.assetId).isSome)).foldl
    (fun r it =>
      let tok := (findVal tokens it.assetId).getD ""
      let data := env.fetchData it.submodel_id it.href tok
      if jsonTruthy data then
        { r with
          submodels := setVal r.submodels it.submodel_id (data.getD ⟨[]⟩),
          submodelDescriptors :=
            modVal r.submodelDescriptors it.submodel_id
              (fun d => { d with status := "success" }) }
      else
        { r with
          submodelDescriptors :=
            modVal r.submodelDescriptors it.submodel_id
              (errorify "Data fetch returned no data") })
    resp

/-- `DtrConsumerMemoryManager._mark_remaining_pending_as_failed`. -/
def mark_remaining_pending_as_failed (items : List SubmodelInfo)
    (resp : SubmodelsResponse) : SubmodelsResponse :=
  items.foldl
    (fun r it =>
      { r with
        submodelDescriptors :=
          modVal r.submodelDescriptors it.submodel_id
            (fun d =>
              if d.status == "pending" then
                errorify "Processing was not completed" d
              else d) })
    resp

/-- `DtrConsumerMemoryManager._fetch_submodels_data`: group, negotiate, mark
failures, fetch, and fail whatever is still pending. -/
def fetch_submodels_data (env : BatchEnv) (items : List SubmodelInfo)
    (resp : SubmodelsResponse) : SubmodelsResponse :=
  let grouped := group_submodels_by_asset items
  match negotiate_assets_parallel env grouped with
  | (tokens, errors) =>
    let r1 := mark_failed_negotiations grouped tokens errors resp
    let r2 := fetch_data_parallel env items tokens r1
    mark_remaining_pending_as_failed items r2

/-- The descriptor `discover_submodels` builds for one submodel of the shell. -/
def build_descriptor (governance : Option (List (String × List Policy)))
    (sd : Submodel) : SubmodelDescriptor :=
  let sid := sd.id.getD "unknown"
  let sem := extract_semantic_id sd
  let info := extract_submodel_endpoint_info sd
  let status := determine_submodel_status sem governance
  { submodelId := sid, semanticId := sem, assetId := info.1,
    connectorUrl := info.2.1, href := info.2.2, status := status,
    error :=
      if status == "error" && !optStrTruthy sem then
        some "No semantic ID found in submodel descriptor"
      else none }

/-- The queue entry `discover_submodels` pushes for a pending descriptor. -/
def build_queue_item (governance : Option (List (String × List Policy)))
    (sd : Submodel) : SubmodelInfo :=
  let sem := extract_semantic_id sd
  let info := extract_submodel_endpoint_info sd
  { submodel_id := sd.id.getD "unknown", semantic_id := sem,
    policies := (findVal (governance.getD []) (sem.getD "")).getD [],
    assetId := info.1, connectorUrl := info.2.1, href := info.2.2 }

/-- The descriptor-building loop of `discover_submodels`: store each
descriptor under its submodel id (a repeated id overwrites the earlier
entry) and queue pending descriptors for fetching. -/
def build_descriptors (governance : Option (List (String × List Policy)))
    (sds : List Submodel) (resp : SubmodelsResponse)
    (queue : List SubmodelInfo) : SubmodelsResponse × List SubmodelInfo :=
  sds.foldl
    (fun acc sd =>
      let d := build_descriptor governance sd
      let r := { acc.1 with
        submodelDescriptors := setVal acc.1.submodelDescriptors d.submodelId d }
      let q :=
        if govTruthy governance && d.status == "pending" then
          acc.2 ++ [build_queue_item governance sd]
        else acc.2
      (r, q))
    (resp, queue)

/-- `DtrConsumerMemoryManager.discover_submodels`, parameterised by the value
the internal `discover_shell` call produced (`.error e` for a failed shell
discovery, carrying its error message). -/
def discover_submodels (env : BatchEnv)
    (shell_result : Except String (Shell × DtrInfo))
    (governance : Option (List (String × List Policy))) : SubmodelsResponse :=
  match shell_result with
  | .error e =>
    { submodelDescriptors := [], submodels := [], submodelsFound := 0,
      dtr := none, error := some e }
  | .ok (shell, dtr_info) =>
    let sds := shell.submodelDescriptors
    let resp0 : SubmodelsResponse :=
      { submodelDescriptors := [], submodels := [], submodelsFound := 0,
        dtr := some dtr_info, error := none }
    if sds.isEmpty then
      { resp0 with error := some "No submodels found in shell" }
    else
      match build_descriptors governance sds resp0 [] with
      | (resp1, queue) =>
        let resp2 :=
          if queue.isEmpty then resp1 else fetch_submodels_data env queue resp1
        { resp2 with submodelsFound := sds.length }

/-! ## Single-submodel fetch with purge-and-retry
(`_fetch_single_submodel_data`) -/

/-- Outcome of one `_purge_asset_cache` call: it raised, or it reported
whether any cached entry was removed. -/
inductive PurgeOutcome where
  | raiseExc (msg : String)
  | ret (existed : Bool)
deriving DecidableEq

/-- Environment of `_fetch_single_submodel_data`: outcomes of successive
negotiation, data-fetch and purge calls, indexed by call order. -/
structure SingleFetchEnv where
  negotiate : Nat → NegOutcome
  fetchData : Nat → Option Json
  purge : Nat → PurgeOutcome

/-- Observable actions of `_fetch_single_submodel_data`, in call order. -/
inductive FetchEv where
  | negotiate
  | fetch
  | purge
  | sleep5
deriving DecidableEq

/-- The single-submodel response record (`submodelDescriptor` + `submodel`). -/
structure SingleSubmodelResponse where
  submodelDescriptor : SubmodelDescriptor
  submodel : Option Json
  dtr : Option DtrInfo
deriving DecidableEq

/-- Set the descriptor's status to `error` with a message. -/
def singleErr (msg : String) (r : SingleSubmodelResponse) :
    SingleSubmodelResponse :=
  { r with submodelDescriptor := errorify msg r.submodelDescriptor }

/-- Record a successful fetch. -/
def singleSuccess (data : Option Json) (r : SingleSubmodelResponse) :
    SingleSubmodelResponse :=
  { r with
    submodel := data,
    submodelDescriptor := { r.submodelDescriptor with status := "success" } }

/-- The `except` handler of `_fetch_single_submodel_data` (`e` is the caught
exception's text): best-effort purge, sleep, renegotiate and refetch once;
any failure inside falls through to the final negotiation-failure error that
appends `e`. -/
def fetch_single_except (env : SingleFetchEnv) (r : SingleSubmodelResponse)
    (e : String) (purgeIdx negIdx fetchIdx : Nat) (evs : List FetchEv) :
    SingleSubmodelResponse × List FetchEv :=
  match env.purge purgeIdx with
  | .raiseExc _ => (singleErr (negGenericMsg ++ " " ++ e) r, evs ++ [FetchEv.purge])
  | .ret _ =>
    match env.negotiate negIdx with
    | .raiseExc _ =>
      (singleErr (negGenericMsg ++ " " ++ e) r,
       evs ++ [FetchEv.purge, FetchEv.sleep5, FetchEv.negotiate])
    | .ret tok =>
      if optStrTruthy tok then
        if jsonTruthy (env.fetchData fetchIdx) then
          (singleSuccess (env.fetchData fetchIdx) r,
           evs ++ [FetchEv.purge, FetchEv.sleep5, FetchEv.negotiate, FetchEv.fetch])
        else
          (singleErr (negGenericMsg ++ " " ++ e) r,
           evs ++ [FetchEv.purge, FetchEv.sleep5, FetchEv.negotiate, FetchEv.fetch])
      else
        (singleErr (negGenericMsg ++ " " ++ e) r,
         evs ++ [FetchEv.purge, FetchEv.sleep5, FetchEv.negotiate])

/-- The no-data continuation of `_fetch_single_submodel_data`: purge the asset
token; if nothing was cached, give up; otherwise sleep 5 seconds, negotiate
again and refetch exactly once. -/
def fetch_single_after_nodata (env : SingleFetchEnv)
    (r : SingleSubmodelResponse) (purgeIdx negIdx fetchIdx : Nat)
    (evs : List FetchEv) : SingleSubmodelResponse × List FetchEv :=
  match env.purge purgeIdx with
  | .raiseExc e =>
    fetch_single_except env r e (purgeIdx + 1) negIdx fetchIdx
      (evs ++ [FetchEv.purge])
  | .ret existed =>
    if !existed then
      (singleErr "This submodel asset does not exists or is not accesible via Connector with your permissions." r,
       evs ++ [FetchEv.purge])
    else
      match env.negotiate negIdx with
      | .raiseExc e =>
        fetch_single_except env r e (purgeIdx + 1) (negIdx + 1) fetchIdx
          (evs ++ [FetchEv.purge, FetchEv.sleep5, FetchEv.negotiate])
      | .ret tok2 =>
        if !optStrTruthy tok2 then
          (singleErr negGenericMsg r,
           evs ++ [FetchEv.purge, FetchEv.sleep5, FetchEv.negotiate])
        else
          if jsonTruthy (env.fetchData fetchIdx) then
            (singleSuccess (env.fetchData fetchIdx) r,
             evs ++ [FetchEv.purge, FetchEv.sleep5, FetchEv.negotiate, FetchEv.fetch])
          else
            (singleErr "Data fetch returned no data after one retry, probably no data is registered behind this submodel descriptor endpoint, or the href of the submodel is incorrect." r,
             evs ++ [FetchEv.purge, FetchEv.sleep5, FetchEv.negotiate, FetchEv.fetch])

/-- `DtrConsumerMemoryManager._fetch_single_submodel_data`, with the list of
performed actions as an explicit trace. -/
def fetch_single_submodel_data (env : SingleFetchEnv) (info : SubmodelInfo)
    (r : SingleSubmodelResponse) : SingleSubmodelResponse × List FetchEv :=
  if info.assetId == "unknown" || info.assetId == "" then
    (singleErr "Invalid asset ID" r, [])
  else
    match env.negotiate 0 with
    | .raiseExc e => fetch_single_except env r e 0 1 0 [FetchEv.negotiate]
    | .ret tok0 =>
      if optStrTruthy tok0 then
        if jsonTruthy (env.fetchData 0) then
          (singleSuccess (env.fetchData 0) r, [FetchEv.negotiate, FetchEv.fetch])
        else
          fetch_single_after_nodata env r 0 1 1 [FetchEv.negotiate, FetchEv.fetch]
      else
        fetch_single_after_nodata env (singleErr negGenericMsg r) 0 1 0
          [FetchEv.negotiate]

/-! ## DPP discovery workflow (ecopass kit)

From `managers/addons_service/ecopass_kit/v1/discovery.py`
(`DiscoveryTaskManager`, `DiscoveryManager.validate_id_format`) and
`controllers/fastapi/routers/addons/ecopass_kit/v1/discovery.py`
(`discover_dpp`, `get_discovery_status`).  The `created_at` wall-clock field
of a task is omitted; the `ValueError` texts are kept without the source's
surrounding quote characters. -/

/-- One task record of the in-memory task store. -/
structure TaskState where
  status : String
  step : String
  message : String
  progress : Nat
  digital_twin : Option Json
  data : Option Json
  error : Option String
deriving DecidableEq

/-- The initial record `DiscoveryTaskManager.create_task` stores. -/
def initial_task : TaskState :=
  { status := "in_progress", step := "parsing",
    message := "Parsing identifier...", progress := 0,
    digital_twin := none, data := none, error := none }

/-- `DiscoveryTaskManager.create_task`. -/
def create_task (store : List (String × TaskState)) (task_id : String) :
    List (String × TaskState) :=
  setVal store task_id initial_task

/-- `DiscoveryTaskManager.task_exists`. -/
def task_exists (store : List (String × TaskState)) (task_id : String) : Bool :=
  (findVal store task_id).isSome

/-- `DiscoveryTaskManager.update_task` (only `execute_discovery` calls it;
the accept path never does). -/
def update_task (store : List (String × TaskState)) (task_id step message : String)
    (progress : Nat) (status : String := "in_progress")
    (digital_twin : Option Json := none) (data : Option Json := none) :
    List (String × TaskState) :=
  if (findVal store task_id).isSome then
    modVal store task_id (fun t =>
      let t1 := { t with
        status := status, step := step, message := message,
        progress := progress }
      let t2 := match digital_twin with
        | some dt => { t1 with digital_twin := some dt }
        | none => t1
      match data with
      | some d => { t2 with data := some d }
      | none => t2)
  else store

/-- `DiscoveryTaskManager.mark_failed` (only `execute_discovery` calls it). -/
def mark_failed (store : List (String × TaskState)) (task_id err : String) :
    List (String × TaskState) :=
  if (findVal store task_id).isSome then
    modVal store task_id (fun t =>
      { t with
        status := "failed", step := t.step,
        message := "Discovery failed: " ++ err, progress := t.progress,
        error := some err })
  else store

/-- `DiscoveryManager.validate_id_format`: the id must start with `CX:` and
split on `:` into exactly three parts; violations raise `ValueError`
(modelled as `Except.error` with the message). -/
def validate_id_format (id_str : String) : Except String Bool :=
  if !pyStartsWith id_str "CX:" then
    .error "ID must be in format CX:<manufacturerPartId>:<partInstanceId>"
  else if (pySplit id_str ":").length ≠ 3 then
    .error "Invalid ID format. Expected CX:<manufacturerPartId>:<partInstanceId>"
  else .ok true

/-- The status block of a `DiscoverDppResponse`. -/
structure DiscoveryStatus where
  status : String
  step : String
  message : String
  progress : Nat
deriving DecidableEq

/-- The response body of the DPP endpoints. -/
structure DiscoverDppResponse where
  taskId : String
  status : DiscoveryStatus
  digitalTwin : Option Json
  data : Option Json
deriving DecidableEq

/-- HTTP outcome of the accept endpoint: a response with its status code, or
an `HTTPException`. -/
inductive AcceptOutcome where
  | accepted (code : Nat) (resp : DiscoverDppResponse)
  | httpError (code : Nat) (detail : String)
deriving DecidableEq

/-- `POST /addons/ecopass/discover/` (`discover_dpp`): generate a task id
(supplied here as `task_id`), create the task record, then validate the id
format — a `ValueError` becomes an `HTTPException 400` raised from the accept
path itself, after the task was stored and before the background task is
scheduled.  On success the endpoint schedules `execute_discovery` (the
returned flag) and answers `202`.  The result is
`(outcome, task store after the call, background task scheduled)`. -/
def discover_dpp (store : List (String × TaskState)) (task_id req_id : String) :
    AcceptOutcome × List (String × TaskState) × Bool :=
  let store1 := create_task store task_id
  match validate_id_format req_id with
  | .error e => (.httpError 400 e, store1, false)
  | .ok _ =>
    (.accepted 202
      { taskId := task_id,
        status := { status := "in_progress", step := "parsing",
                    message := "Discovery task started", progress := 0 },
        digitalTwin := none, data := none },
     store1, true)

/-- `GET /addons/ecopass/discover/{task_id}/status` (`get_discovery_status`):
`404` for unknown tasks, else the current task snapshot. -/
def get_discovery_status (store : List (String × TaskState)) (task_id : String) :
    Except (Nat × String) DiscoverDppResponse :=
  match findVal store task_id with
  | none => .error (404, "Discovery task not found: " ++ task_id)
  | some t =>
    .ok { taskId := task_id,
          status := { status := t.status, step := t.step, message := t.message,
                      progress := t.progress },
          digitalTwin := t.digital_twin, data := t.data }

/-! ## Derived behaviour descriptions used by the theorems -/

/-- Cache lookup of a DTR entry by BPN and asset id. -/
def lookup_dtr (st : MgrState) (bpn aid : String) : Option DtrEntry :=
  (findVal st.known_dtrs bpn).bind (fun sh => findVal sh.dtrs aid)

/-- Whether an attempt outcome is a failure (an exception or a non-200
status). -/
def isFailure : AttemptOutcome → Bool
  | .raiseExc _ => true
  | .http code _ _ => code != 200

/-- Well-formedness of the cache shard of one BPN: its per-asset dict has no
duplicate keys (always true of a Python dict; an absent shard is trivially
well-formed). -/
def shardNodup (st : MgrState) (bpn : String) : Prop :=
  (((findVal st.known_dtrs bpn).map (fun sh => sh.dtrs.map Prod.fst)).getD []).Nodup

instance (st : MgrState) (bpn : String) : Decidable (shardNodup st bpn) := by
  unfold shardNodup
  infer_instance

/-- The access token a negotiation yields for an asset, `none` when the
negotiation raises or returns a falsy token. -/
def negToken (env : BatchEnv) (a : String) : Option String :=
  match env.negotiateAsset a with
  | .ret t => if optStrTruthy t then some (t.getD "") else none
  | .raiseExc _ => none

/-- The diagnostic `_negotiate_assets_parallel` files for a failed asset. -/
def negDiag (env : BatchEnv) (a : String) : String :=
  match env.negotiateAsset a with
  | .ret _ => negGenericMsg
  | .raiseExc m => negGenericMsg ++ " " ++ m

/-- The error entry `_negotiate_assets_parallel` files for an asset: `none`
when the negotiation yielded a truthy token, the diagnostic otherwise. -/
def negErr (env : BatchEnv) (a : String) : Option String :=
  match negToken env a with
  | some _ => none
  | none => some (negDiag env a)

/-- The `_mark_remaining_pending_as_failed` action on one descriptor. -/
def pendFail (d : SubmodelDescriptor) : SubmodelDescriptor :=
  if d.status == "pending" then errorify "Processing was not completed" d else d

/-- What the whole fetch pipeline does to the descriptor of one queued item
(assuming pairwise-distinct queued submodel ids; see
`fetch_submodels_lookup`). -/
def itemOutcome (env : BatchEnv) (it : SubmodelInfo)
    (d : SubmodelDescriptor) : SubmodelDescriptor :=
  if it.assetId = "" ∨ it.assetId = "unknown" then pendFail d
  else
    match negToken env it.assetId with
    | none => pendFail (errorify (negDiag env it.assetId) d)
    | some t =>
      pendFail
        (if jsonTruthy (env.fetchData it.submodel_id it.href t) then
          { d with status := "success" }
        else errorify "Data fetch returned no data" d)

/-- Key-insertion fold describing how the descriptor map's key list grows
while `discover_submodels` stores descriptors under their submodel ids. -/
def insKeys (ks ids : List String) : List String :=
  ids.foldl (fun acc k => if k ∈ acc then acc else acc ++ [k]) ks

/-- The payload the pipeline stores under `submodels[submodel_id]` for one
queued item (`none` when nothing is stored: unknown asset, failed
negotiation, or falsy data). -/
def itemData (env : BatchEnv) (it : SubmodelInfo) : Option Json :=
  if it.assetId = "" ∨ it.assetId = "unknown" then none
  else
    match negToken env it.assetId with
    | none => none
    | some t =>
      if jsonTruthy (env.fetchData it.submodel_id it.href t) then
        some ((env.fetchData it.submodel_id it.href t).getD ⟨[]⟩)
      else none

/-! ## Concrete instances used by counterexamples and witnesses -/

/-- A quiet manager configuration (no logger, not verbose). -/
def cfgQuiet : MgrConfig :=
  { hasLogger := false, verbose := false, expiration_time := 60,
    dct_type_key := "dct-type-key", operator := "=", dct_type := DCT_TYPE_URI }

/-- A verbose manager configuration (logger present, verbose). -/
def cfgVerbose : MgrConfig := { cfgQuiet with hasLogger := true, verbose := true }

/-- A DTR dataset as offered in a connector catalog. -/
def dsC1 : Dataset :=
  { atId := "asset-1", dctType := TypeVal.objT (some DCT_TYPE_URI),
    dctTypeExpanded := TypeVal.absent,
    hasPolicy := [Policy.objP [("odrl:permission", "use")]] }

/-- Upstream with one connector offering `dsC1`. -/
def envC1 : DiscoveryEnv :=
  { now := 1000, connectors := some ["edc-1"],
    catalog := fun u =>
      if u == "edc-1" then some { error := false, datasets := [dsC1] } else none }

/-- A cache state holding one (expired-by-`envC1.now`) shard for `BPN1`. -/
def stPreC1 : MgrState :=
  { known_dtrs :=
      [("BPN1",
        { refresh_at := 500,
          dtrs := [("old-asset",
            { connector_url := "edc-0", asset_id := "old-asset",
              policies := [Policy.strP "p"] })] })],
    shell_descriptors := [] }

/-- The DTR entry discovery should find for `BPN1` after a purge. -/
def entryC1 : DtrEntry :=
  { connector_url := "edc-1", asset_id := "asset-1",
    policies := [Policy.objP [("odrl:permission", "use")]] }

/-- A cached DTR entry at asset id `A`. -/
def entryA : DtrEntry :=
  { connector_url := "edc-1", asset_id := "A", policies := [Policy.strP "pol"] }

/-- A fresh single-DTR cache for `BPN1`. -/
def stOneDtr : MgrState :=
  { known_dtrs := [("BPN1", { refresh_at := 100, dtrs := [("A", entryA)] })],
    shell_descriptors := [] }

/-- Two shell descriptors served by the test upstream. -/
def shellS1 : Shell := { id := some "s-1", submodelDescriptors := [] }

def shellS2 : Shell := { id := some "s-2", submodelDescriptors := [] }

/-- Upstream for `discover_shells` runs: every attempt succeeds with shells
`s-1`, `s-2` and no further page. -/
def envC3 : ShellsEnv :=
  { disc := { now := 0, connectors := some [], catalog := fun _ => none },
    attempt := fun _ _ _ _ => AttemptOutcome.http 200 ["s-1", "s-2"] none,
    fetchShell := fun u =>
      if u == "s-1" then some shellS1
      else if u == "s-2" then some shellS2 else none }

/-- A decoded cursor carrying `limit = 1`. -/
def pC3 : PageState := PageState.mk [] 0 (some 1) none

/-- Upstream for the retry counterexample: the first attempt against `A`
fails with HTTP 500, the second succeeds. -/
def envC4 : ShellsEnv :=
  { disc := { now := 0, connectors := some [], catalog := fun _ => none },
    attempt := fun _ n _ _ =>
      if n == 0 then AttemptOutcome.http 500 [] none
      else AttemptOutcome.http 200 ["s-1"] none,
    fetchShell := fun u => if u == "s-1" then some shellS1 else none }

/-- Single-fetch environment: negotiation succeeds, the fetch returns no
data, and the purge finds nothing cached. -/
def envC5 : SingleFetchEnv :=
  { negotiate := fun _ => NegOutcome.ret (some "tok"),
    fetchData := fun _ => none,
    purge := fun _ => PurgeOutcome.ret false }

/-- Single-fetch environment for the witness: as `envC5` but the purge finds
a cached entry and the refetch yields data. -/
def envC5b : SingleFetchEnv :=
  { negotiate := fun _ => NegOutcome.ret (some "tok"),
    fetchData := fun n => if n == 0 then none else some ⟨[("k", "v")]⟩,
    purge := fun _ => PurgeOutcome.ret true }

/-- A queued item bound to asset `A`. -/
def infoC5 : SubmodelInfo :=
  { submodel_id := "sm-1", semantic_id := some "urn:sem",
    policies := [Policy.strP "pol"], assetId := "A", connectorUrl := "edc-1",
    href := "http://data/sm-1" }

/-- The pre-fetch single-submodel response for `infoC5` (status `pending`). -/
def respC5 : SingleSubmodelResponse :=
  { submodelDescriptor :=
      { submodelId := "sm-1", semanticId := some "urn:sem", assetId := "A",
        connectorUrl := "edc-1", href := "http://data/sm-1",
        status := "pending", error := none },
    submodel := none, dtr := none }

/-- Two queued items on distinct assets `A1` (whose negotiation raises) and
`A2` (which negotiates and fetches fine). -/
def itemW1 : SubmodelInfo :=
  { submodel_id := "sm1", semantic_id := some "urn:s1",
    policies := [Policy.strP "p1"], assetId := "A1", connectorUrl := "edc-1",
    href := "h1" }

def itemW2 : SubmodelInfo :=
  { submodel_id := "sm2", semantic_id := some "urn:s2",
    policies := [Policy.strP "p2"], assetId := "A2", connectorUrl := "edc-1",
    href := "h2" }

def envW : BatchEnv :=
  { negotiateAsset := fun a =>
      if a == "A1" then NegOutcome.raiseExc "boom"
      else NegOutcome.ret (some "tokB"),
    fetchData := fun sid _ _ =>
      if sid == "sm2" then some ⟨[("k", "v")]⟩ else none }

/-- A pending descriptor for a queued item. -/
def pendDesc (it : SubmodelInfo) : SubmodelDescriptor :=
  { submodelId := it.submodel_id, semanticId := it.semantic_id,
    assetId := it.assetId, connectorUrl := it.connectorUrl, href := it.href,
    status := "pending", error := none }

/-- The pre-pipeline response for the two witness items. -/
def respW : SubmodelsResponse :=
  { submodelDescriptors := [("sm1", pendDesc itemW1), ("sm2", pendDesc itemW2)],
    submodels := [], submodelsFound := 0, dtr := none, error := none }

/-- A submodel descriptor (id `dup`) with a semantic id and no endpoints. -/
def sdDup1 : Submodel :=
  { id := some "dup",
    semanticId := some
      { keys := [{ type := some "GlobalReference", value := some "urn:one" }] },
    endpoints := [] }

/-- A second descriptor sharing the id `dup`. -/
def sdDup2 : Submodel :=
  { id := some "dup",
    semanticId := some
      { keys := [{ type := some "GlobalReference", value := some "urn:two" }] },
    endpoints := [] }

/-- A shell whose descriptor list repeats the submodel id `dup`. -/
def shellDup : Shell := { id := some "sh-dup", submodelDescriptors := [sdDup1, sdDup2] }

/-- A shell with two distinct submodel ids. -/
def shellDistinct : Shell :=
  { id := some "sh-ok",
    submodelDescriptors :=
      [{ sdDup1 with id := some "sm-a" }, { sdDup2 with id := some "sm-b" }] }

/-- A batch environment that is never consulted. -/
def envIdle : BatchEnv :=
  { negotiateAsset := fun _ => NegOutcome.raiseExc "unused",
    fetchData := fun _ _ _ => none }

/-- DTR info attached to shell results in the tests. -/
def dtrInfoW : DtrInfo := { connectorUrl := "edc-1", assetId := "A" }

/-- A governed submodel descriptor without any `SUBMODEL-3.0` endpoint. -/
def sdNoEp : Submodel :=
  { id := some "sm-noep",
    semanticId := some
      { keys := [{ type := some "GlobalReference", value := some "urn:gov" }] },
    endpoints := [] }

/-- A shell containing only `sdNoEp`. -/
def shellNoEp : Shell := { id := some "sh-noep", submodelDescriptors := [sdNoEp] }

/-- Governance granting policies for `urn:gov`. -/
def govNoEp : Option (List (String × List Policy)) :=
  some [("urn:gov", [Policy.strP "p"])]

/-- A submodel carrying one `(type, value)` semantic key. -/
def sdOneKey : Submodel :=
  { id := some "sm-k",
    semanticId := some
      { keys := [{ type := some "GlobalReference", value := some "urn:k" }] },
    endpoints := [] }

/-- Decidable equality of `Except` results (used to evaluate
`validate_id_format` at concrete identifiers). -/
instance {ε α : Type} [DecidableEq ε] [DecidableEq α] :
    DecidableEq (Except ε α) := fun a b =>
  match a, b with
  | .ok x, .ok y =>
    if h : x = y then .isTrue (by rw [h]) else .isFalse (by simp [h])
  | .error x, .error y =>
    if h : x = y then .isTrue (by rw [h]) else .isFalse (by simp [h])
  | .ok _, .error _ => .isFalse (by simp)
  | .error _, .ok _ => .isFalse (by simp)

/-! ## Association-list lemmas -/

theorem findVal_setVal {α : Type} (m : List (String × α)) (k : String) (v : α)
    (q : String) :
    findVal (setVal m k v) q = if k = q then some v else findVal m q := by
  induction m with
  | nil => by_cases h : k = q <;> simp [setVal, findVal, h]
  | cons p rest ih =>
    obtain ⟨k', v'⟩ := p
    by_cases h : k' = k
    · subst h
      by_cases h2 : k' = q <;> simp [setVal, findVal, h2]
    · by_cases h2 : k' = q
      · subst h2
        have : ¬k = k' := fun hh => h hh.symm
        simp [setVal, findVal, h, this]
      · simp [setVal, findVal, h, h2, ih]

theorem findVal_delVal_ne {α : Type} (m : List (String × α)) (k q : String)
    (h : q ≠ k) : findVal (delVal m k) q = findVal m q := by
  induction m with
  | nil => simp [delVal]
  | cons p rest ih =>
    obtain ⟨k', v'⟩ := p
    by_cases h1 : k' = k
    · rw [delVal, if_pos h1, findVal]
      have hne : ¬k' = q := fun hh => h (by rw [← hh]; exact h1)
      simp [hne]
    · rw [delVal, if_neg h1]
      by_cases h2 : k' = q <;> simp [findVal, h2, ih]

theorem delVal_sublist {α : Type} (m : List (String × α)) (k : String) :
    List.Sublist (delVal m k) m := by
  induction m with
  | nil => simp [delVal]
  | cons p rest ih =>
    obtain ⟨k', v'⟩ := p
    rw [delVal]
    by_cases h : k' = k
    · rw [if_pos h]
      exact List.sublist_cons_self _ _
    · rw [if_neg h]
      exact List.Sublist.cons₂ _ ih

theorem findVal_eq_none_of_not_mem {α : Type} (m : List (String × α))
    (k : String) (h : k ∉ m.map Prod.fst) : findVal m k = none := by
  induction m with
  | nil => simp [findVal]
  | cons p rest ih =>
    obtain ⟨k', v'⟩ := p
    simp only [List.map_cons, List.mem_cons] at h
    push_neg at h
    have : k' ≠ k := fun hh => h.1 hh.symm
    simp [findVal, this, ih h.2]

theorem mem_of_findVal_isSome {α : Type} (m : List (String × α)) (k : String)
    (h : (findVal m k).isSome) : k ∈ m.map Prod.fst := by
  by_contra hc
  rw [findVal_eq_none_of_not_mem m k hc] at h
  simp at h

theorem findVal_delVal_self {α : Type} (m : List (String × α)) (k : String)
    (h : (m.map Prod.fst).Nodup) : findVal (delVal m k) k = none := by
  induction m with
  | nil => simp [delVal, findVal]
  | cons p rest ih =>
    obtain ⟨k', v'⟩ := p
    simp only [List.map_cons, List.nodup_cons] at h
    by_cases h1 : k' = k
    · subst h1
      simp only [delVal, if_pos rfl]
      exact findVal_eq_none_of_not_mem rest k' h.1
    · simp [delVal, findVal, h1, ih h.2]

theorem modVal_cons {α : Type} (k' : String) (v' : α)
    (rest : List (String × α)) (k : String) (f : α → α) :
    modVal ((k', v') :: rest) k f =
      (if k' = k then (k', f v') else (k', v')) :: modVal rest k f := by
  by_cases h : k' = k <;> simp [modVal, h]

theorem findVal_modVal {α : Type} (m : List (String × α)) (k : String)
    (f : α → α) (q : String) :
    findVal (modVal m k f) q =
      if k = q then (findVal m q).map f else findVal m q := by
  induction m with
  | nil => by_cases h : k = q <;> simp [modVal, findVal, h]
  | cons p rest ih =>
    obtain ⟨k', v'⟩ := p
    rw [modVal_cons]
    by_cases h1 : k' = k
    · rw [if_pos h1]
      subst h1
      by_cases h2 : k' = q
      · subst h2
        simp [findVal]
      · simp [findVal, h2, ih]
    · rw [if_neg h1]
      by_cases h2 : k' = q
      · subst h2
        have hkq : ¬k = k' := fun hh => h1 hh.symm
        simp [findVal, hkq]
      · simp [findVal, h2, ih]

theorem keys_modVal {α : Type} (m : List (String × α)) (k : String)
    (f : α → α) : (modVal m k f).map Prod.fst = m.map Prod.fst := by
  induction m with
  | nil => simp [modVal]
  | cons p rest ih =>
    obtain ⟨k', v'⟩ := p
    by_cases h : k' = k <;> simp only [modVal, List.map_cons] at ih ⊢ <;>
      simp [h, ih]

theorem keys_setVal {α : Type} (m : List (String × α)) (k : String) (v : α) :
    (setVal m k v).map Prod.fst =
      if k ∈ m.map Prod.fst then m.map Prod.fst else m.map Prod.fst ++ [k] := by
  induction m with
  | nil => simp [setVal]
  | cons p rest ih =>
    obtain ⟨k', v'⟩ := p
    by_cases h : k' = k
    · subst h
      simp [setVal]
    · have : ¬k = k' := fun hh => h hh.symm
      by_cases h2 : k ∈ rest.map Prod.fst <;>
        simp [setVal, h, this, h2, ih]

/-! ## Claim C1: `get_dtrs` re-discovery is gated on a verbose logger -/

/-- C1 (code bug): after `purge_bpn`, a `get_dtrs` call on a manager without
a verbose logger returns `none` (the source function body falls through the
`if (self.logger and self.verbose):` guard without reaching the discovery
code), while the identically configured upstream yields the discovered DTR
list as soon as the manager is verbose.  The spec requires the re-discovery
and a list result regardless of logging configuration. -/
theorem C1_get_dtrs_discovery_gated_on_verbose_logger :
    (get_dtrs envC1 cfgQuiet (purge_bpn stPreC1 "BPN1") "BPN1").1 = none ∧
    (get_dtrs envC1 cfgVerbose (purge_bpn stPreC1 "BPN1") "BPN1").1 =
      some [entryC1] := by
  constructor <;> rfl

/-! ## Claim C2: the DPP accept path rejects malformed ids with HTTP 400 -/

/-- C2 (counterexample): a malformed identifier is rejected synchronously by
the accept endpoint with an `HTTPException 400` — not accepted with `202` and
not deferred to a status poll. -/
theorem C2_accept_400_on_malformed_id :
    (discover_dpp [] "tid-1" "bad").1 =
      AcceptOutcome.httpError 400
        "ID must be in format CX:<manufacturerPartId>:<partInstanceId>" := by
  decide

/-- C2 (amended): for every identifier accepted by `validate_id_format`, the
accept endpoint returns `202` with the task id and the initial
`in_progress`/`parsing`/progress-0 status, stores the task, and schedules the
background discovery; only malformed identifiers are rejected with an HTTP
error from the accept path. -/
theorem C2_accept_202_on_valid_id (store : List (String × TaskState))
    (tid rid : String) (h : validate_id_format rid = .ok true) :
    discover_dpp store tid rid =
      (AcceptOutcome.accepted 202
        { taskId := tid,
          status := { status := "in_progress", step := "parsing",
                      message := "Discovery task started", progress := 0 },
          digitalTwin := none, data := none },
       create_task store tid, true) := by
  simp [discover_dpp, h]

/-- Witness for `C2_accept_202_on_valid_id` at a concrete valid identifier. -/
theorem C2_accept_202_on_valid_id_witness :
    validate_id_format "CX:P-42:INST-1" = .ok true ∧
    discover_dpp [] "tid-2" "CX:P-42:INST-1" =
      (AcceptOutcome.accepted 202
        { taskId := "tid-2",
          status := { status := "in_progress", step := "parsing",
                      message := "Discovery task started", progress := 0 },
          digitalTwin := none, data := none },
       create_task [] "tid-2", true) :=
  ⟨by decide, C2_accept_202_on_valid_id [] "tid-2" "CX:P-42:INST-1" (by decide)⟩

/-! ## Claim C9: the task created before validation stays frozen -/

/-- C9: when the accept endpoint rejects a malformed identifier, the task it
created beforehand stays in the store with the initial
`in_progress`/`parsing`/progress-0 record, the background task is never
scheduled (so nothing ever updates, fails or removes it — the task manager has
no removal operation), and a status poll returns that frozen snapshot instead
of a 404 or a failed status. -/
theorem C9_rejected_accept_leaves_frozen_task
    (store : List (String × TaskState)) (tid rid e : String)
    (hfresh : findVal store tid = none)
    (hbad : validate_id_format rid = .error e) :
    (discover_dpp store tid rid).1 = AcceptOutcome.httpError 400 e ∧
    (discover_dpp store tid rid).2.2 = false ∧
    findVal (discover_dpp store tid rid).2.1 tid = some initial_task ∧
    get_discovery_status (discover_dpp store tid rid).2.1 tid =
      .ok { taskId := tid,
            status := { status := "in_progress", step := "parsing",
                        message := "Parsing identifier...", progress := 0 },
            digitalTwin := none, data := none } := by
  have hset : findVal (create_task store tid) tid = some initial_task := by
    rw [create_task, findVal_setVal]
    simp
  refine ⟨by simp [discover_dpp, hbad], by simp [discover_dpp, hbad], ?_, ?_⟩
  · simpa [discover_dpp, hbad] using hset
  · simp only [discover_dpp, hbad]
    rw [get_discovery_status, hset]
    rfl

/-- Witness for `C9_rejected_accept_leaves_frozen_task` on an empty store and
the malformed id `bad`. -/
theorem C9_rejected_accept_leaves_frozen_task_witness :
    findVal ([] : List (String × TaskState)) "t1" = none ∧
    validate_id_format "bad" =
      .error "ID must be in format CX:<manufacturerPartId>:<partInstanceId>" ∧
    findVal (discover_dpp [] "t1" "bad").2.1 "t1" = some initial_task ∧
    get_discovery_status (discover_dpp [] "t1" "bad").2.1 "t1" =
      .ok { taskId := "t1",
            status := { status := "in_progress", step := "parsing",
                        message := "Parsing identifier...", progress := 0 },
            digitalTwin := none, data := none } :=
  ⟨by decide, by decide,
   (C9_rejected_accept_leaves_frozen_task [] "t1" "bad"
      "ID must be in format CX:<manufacturerPartId>:<partInstanceId>"
      (by decide) (by decide)).2.2.1,
   (C9_rejected_accept_leaves_frozen_task [] "t1" "bad"
      "ID must be in format CX:<manufacturerPartId>:<partInstanceId>"
      (by decide) (by decide)).2.2.2⟩

/-! ## Claim C7: multi-key semantic matching -/

/-- C7 (counterexample): the empty target list never matches, although the
empty set is a subset of every descriptor's semantic-id set — so the
claimed "matches iff subset, for every target set including the empty one"
fails at the empty target. -/
theorem C7_empty_target_never_matches :
    semantic_ids_match (extract_all_semantic_ids sdOneKey) [] = false ∧
    ∀ p ∈ ([] : List (String × String)), p ∈ extract_all_semantic_ids sdOneKey := by
  exact ⟨by decide, by simp⟩

/-- C7 (amended): for every non-empty target list, a descriptor matches iff
every target `(type, value)` pair occurs in its extracted semantic-id set;
the empty target list never matches. -/
theorem C7_match_iff_subset_for_nonempty (sd : Submodel)
    (t : List (String × String)) (h : t ≠ []) :
    semantic_ids_match (extract_all_semantic_ids sd) t = true ↔
      ∀ p ∈ t, p ∈ extract_all_semantic_ids sd := by
  rw [semantic_ids_match, if_neg (by simpa using h)]
  rw [List.all_eq_true]
  constructor
  · intro hx p hp
    have := hx p hp
    simpa [List.contains_iff_exists_mem_beq] using this
  · intro hx p hp
    simpa [List.contains_iff_exists_mem_beq] using hx p hp

/-- Witness for `C7_match_iff_subset_for_nonempty` at a concrete descriptor
and singleton target. -/
theorem C7_match_iff_subset_for_nonempty_witness :
    ([("GlobalReference", "urn:k")] : List (String × String)) ≠ [] ∧
    (semantic_ids_match (extract_all_semantic_ids sdOneKey)
        [("GlobalReference", "urn:k")] = true ↔
      ∀ p ∈ [("GlobalReference", "urn:k")],
        p ∈ extract_all_semantic_ids sdOneKey) :=
  ⟨by decide,
   C7_match_iff_subset_for_nonempty sdOneKey [("GlobalReference", "urn:k")]
     (by decide)⟩

/-! ## Claim C5: single-submodel purge-and-retry -/

theorem count_fetch_except (env : SingleFetchEnv) (r : SingleSubmodelResponse)
    (e : String) (pI nI fI : Nat) (evs : List FetchEv) :
    (fetch_single_except env r e pI nI fI evs).2.count FetchEv.fetch ≤
      evs.count FetchEv.fetch + 1 := by
  unfold fetch_single_except
  split
  · simp [List.count_append]
  · split
    · simp [List.count_append]
    · split
      · split <;> simp [List.count_append]
      · simp [List.count_append]

theorem count_fetch_after_nodata (env : SingleFetchEnv)
    (r : SingleSubmodelResponse) (pI nI fI : Nat) (evs : List FetchEv) :
    (fetch_single_after_nodata env r pI nI fI evs).2.count FetchEv.fetch ≤
      evs.count FetchEv.fetch + 1 := by
  unfold fetch_single_after_nodata
  split
  · refine le_trans (count_fetch_except env r _ (pI + 1) nI fI
      (evs ++ [FetchEv.purge])) ?_
    simp [List.count_append]
  · split
    · simp [List.count_append]
    · split
      · refine le_trans (count_fetch_except env r _ (pI + 1) (nI + 1) fI
          (evs ++ [FetchEv.purge, FetchEv.sleep5, FetchEv.negotiate])) ?_
        simp [List.count_append]
      · split
        · simp [List.count_append]
        · split <;> simp [List.count_append]

theorem count_fetch_single (env : SingleFetchEnv) (info : SubmodelInfo)
    (r : SingleSubmodelResponse) :
    (fetch_single_submodel_data env info r).2.count FetchEv.fetch ≤ 2 := by
  unfold fetch_single_submodel_data
  split
  · simp
  · split
    · refine le_trans (count_fetch_except env r _ 0 1 0 [FetchEv.negotiate]) ?_
      decide
    · split
      · split
        · simp
        · refine le_trans (count_fetch_after_nodata env r 0 1 1
            [FetchEv.negotiate, FetchEv.fetch]) ?_
          decide
      · refine le_trans (count_fetch_after_nodata env (singleErr negGenericMsg r)
          0 1 0 [FetchEv.negotiate]) ?_
        decide

/-- C5 (counterexample): the first fetch returns no data, but because the
purge reports that nothing was cached, the call returns an error immediately
— no sleep, no renegotiation and no refetch happen, refuting "exactly one
purge-sleep-renegotiate-refetch cycle is performed". -/
theorem C5_no_cycle_when_purge_finds_nothing :
    (fetch_single_submodel_data envC5 infoC5 respC5).2 =
      [FetchEv.negotiate, FetchEv.fetch, FetchEv.purge] ∧
    FetchEv.sleep5 ∉ (fetch_single_submodel_data envC5 infoC5 respC5).2 ∧
    (fetch_single_submodel_data envC5 infoC5 respC5).1.submodelDescriptor.status =
      "error" := by
  refine ⟨by decide, by decide, by decide⟩

/-- C5 (amended): after a first fetch that returns no data, the asset cache
is purged; when the purge removed a cached entry the call sleeps 5 seconds,
renegotiates and refetches exactly once (ending `success` iff the refetch
yields data), but when the purge removed nothing the descriptor is
immediately marked `error` with no sleep, renegotiation or refetch; in every
execution at most one refetch ever happens (at most two fetch events). -/
theorem C5_single_retry_protocol :
    (∀ (env : SingleFetchEnv) (info : SubmodelInfo) (r : SingleSubmodelResponse),
      (fetch_single_submodel_data env info r).2.count FetchEv.fetch ≤ 2) ∧
    (∀ (env : SingleFetchEnv) (info : SubmodelInfo) (r : SingleSubmodelResponse)
      (t : Option String),
      info.assetId ≠ "unknown" → info.assetId ≠ "" →
      env.negotiate 0 = NegOutcome.ret t → optStrTruthy t = true →
      jsonTruthy (env.fetchData 0) = false →
      ((env.purge 0 = PurgeOutcome.ret false →
        fetch_single_submodel_data env info r =
          (singleErr "This submodel asset does not exists or is not accesible via Connector with your permissions." r,
           [FetchEv.negotiate, FetchEv.fetch, FetchEv.purge])) ∧
       (env.purge 0 = PurgeOutcome.ret true →
        ∀ t2, env.negotiate 1 = NegOutcome.ret t2 → optStrTruthy t2 = true →
          (fetch_single_submodel_data env info r).2 =
            [FetchEv.negotiate, FetchEv.fetch, FetchEv.purge, FetchEv.sleep5,
             FetchEv.negotiate, FetchEv.fetch] ∧
          ((fetch_single_submodel_data env info r).1.submodelDescriptor.status =
              "success" ↔ jsonTruthy (env.fetchData 1) = true)))) := by
  constructor
  · exact count_fetch_single
  · intro env info r t hA hA2 hneg htok hdata
    have hguard : (info.assetId == "unknown" || info.assetId == "") = false := by
      simp [hA, hA2]
    constructor
    · intro hpurge
      unfold fetch_single_submodel_data
      simp only [hguard, Bool.false_eq_true, if_false, hneg, htok, if_true,
        hdata, if_false]
      unfold fetch_single_after_nodata
      simp [hpurge]
    · intro hpurge t2 hneg2 htok2
      unfold fetch_single_submodel_data
      simp only [hguard, Bool.false_eq_true, if_false, hneg, htok, if_true,
        hdata, if_false]
      unfold fetch_single_after_nodata
      simp only [hpurge, Bool.not_true, Bool.false_eq_true, if_false, hneg2,
        htok2, if_true]
      by_cases hd : jsonTruthy (env.fetchData 1)
      · simp [hd, singleSuccess]
      · simp only [hd, Bool.false_eq_true, if_false]
        refine ⟨rfl, ?_⟩
        simp [singleErr, errorify, hd]

/-- Witness for `C5_single_retry_protocol`: the purge-succeeds branch at
`envC5b`, where the refetch yields data. -/
theorem C5_single_retry_protocol_witness :
    (fetch_single_submodel_data envC5b infoC5 respC5).2.count FetchEv.fetch ≤ 2 ∧
    ((fetch_single_submodel_data envC5b infoC5 respC5).2 =
      [FetchEv.negotiate, FetchEv.fetch, FetchEv.purge, FetchEv.sleep5,
       FetchEv.negotiate, FetchEv.fetch] ∧
     ((fetch_single_submodel_data envC5b infoC5 respC5).1.submodelDescriptor.status =
        "success" ↔ jsonTruthy (envC5b.fetchData 1) = true)) :=
  ⟨C5_single_retry_protocol.1 envC5b infoC5 respC5,
   (C5_single_retry_protocol.2 envC5b infoC5 respC5 (some "tok") (by decide)
      (by decide) (by decide) (by decide) (by decide)).2 (by decide)
     (some "tok") (by decide) (by decide)⟩

/-! ## Claim C4: eviction behaviour of the shell-lookup retry loop -/

theorem lookup_delete_connection_frame (st : MgrState) (bpn aid b a : String)
    (h : b ≠ bpn ∨ a ≠ aid) :
    lookup_dtr (delete_connection_mgr st bpn aid) b a = lookup_dtr st b a := by
  unfold delete_connection_mgr
  cases hf : findVal st.known_dtrs bpn with
  | none => rfl
  | some shard =>
    unfold lookup_dtr
    simp only [findVal_setVal]
    by_cases hb : bpn = b
    · subst hb
      have ha : a ≠ aid := by
        rcases h with h | h
        · exact absurd rfl h
        · exact h
      rw [if_pos rfl, hf]
      simp only [Option.some_bind]
      exact findVal_delVal_ne shard.dtrs aid a ha
    · rw [if_neg hb]

theorem lookup_delete_connection_self (st : MgrState) (bpn aid : String)
    (h : shardNodup st bpn) :
    lookup_dtr (delete_connection_mgr st bpn aid) bpn aid = none := by
  unfold delete_connection_mgr
  cases hf : findVal st.known_dtrs bpn with
  | none =>
    unfold lookup_dtr
    rw [hf]
    rfl
  | some shard =>
    unfold lookup_dtr
    simp only [findVal_setVal, if_pos rfl, Option.some_bind]
    unfold shardNodup at h
    rw [hf] at h
    simp only [Option.map_some', Option.getD_some] at h
    exact findVal_delVal_self shard.dtrs aid h

theorem findVal_delVal_of_none {α : Type} (m : List (String × α)) (k : String)
    (h : findVal m k = none) : findVal (delVal m k) k = none := by
  induction m with
  | nil => simp [delVal, findVal]
  | cons p rest ih =>
    obtain ⟨k', v'⟩ := p
    by_cases h1 : k' = k
    · subst h1
      simp [findVal] at h
    · simp only [findVal, if_neg h1] at h
      simp only [delVal, if_neg h1, findVal, if_neg h1]
      exact ih h

theorem lookup_delete_connection_none (st : MgrState) (bpn aid : String)
    (h : lookup_dtr st bpn aid = none) :
    lookup_dtr (delete_connection_mgr st bpn aid) bpn aid = none := by
  unfold delete_connection_mgr
  cases hf : findVal st.known_dtrs bpn with
  | none =>
    unfold lookup_dtr
    rw [hf]
    rfl
  | some shard =>
    unfold lookup_dtr
    simp only [findVal_setVal, if_pos rfl, Option.some_bind]
    unfold lookup_dtr at h
    rw [hf] at h
    simp only [Option.some_bind] at h
    exact findVal_delVal_of_none shard.dtrs aid h

theorem shardNodup_delete_connection (st : MgrState) (bpn aid : String)
    (h : shardNodup st bpn) :
    shardNodup (delete_connection_mgr st bpn aid) bpn := by
  unfold delete_connection_mgr
  cases hf : findVal st.known_dtrs bpn with
  | none => exact h
  | some shard =>
    unfold shardNodup
    simp only [findVal_setVal, if_pos rfl, Option.map_some', Option.getD_some]
    unfold shardNodup at h
    rw [hf] at h
    simp only [Option.map_some', Option.getD_some] at h
    exact h.sublist ((delVal_sublist shard.dtrs aid).map Prod.fst)

theorem process_dtr_loop_frame (env : ShellsEnv)
    (cpid curl aid : String) (pols : List Policy) (fexpr : FilterExpr)
    (limit : Option Nat) (cursor : Option String) (mr : Nat) :
    ∀ (remaining attempt : Nat) (st : MgrState) (evs : List ConnEvent)
      (cur : DtrProcessResult) (b a : String), (b ≠ cpid ∨ a ≠ aid) →
      lookup_dtr (process_dtr_loop env cpid curl aid pols fexpr limit cursor mr
        attempt remaining st evs cur).2.1 b a = lookup_dtr st b a := by
  intro remaining
  induction remaining with
  | zero =>
    intro attempt st evs cur b a h
    rw [process_dtr_loop]
    split
    · split
      · rfl
      · exact lookup_delete_connection_frame st cpid aid b a h
    · exact lookup_delete_connection_frame st cpid aid b a h
  | succ r ih =>
    intro attempt st evs cur b a h
    rw [process_dtr_loop]
    split
    · split
      · rfl
      · rw [ih _ _ _ _ b a h]
        exact lookup_delete_connection_frame st cpid aid b a h
    · rw [ih _ _ _ _ b a h]
      exact lookup_delete_connection_frame st cpid aid b a h

theorem process_dtr_loop_none (env : ShellsEnv)
    (cpid curl aid : String) (pols : List Policy) (fexpr : FilterExpr)
    (limit : Option Nat) (cursor : Option String) (mr : Nat) :
    ∀ (remaining attempt : Nat) (st : MgrState) (evs : List ConnEvent)
      (cur : DtrProcessResult),
      lookup_dtr st cpid aid = none →
      lookup_dtr (process_dtr_loop env cpid curl aid pols fexpr limit cursor mr
        attempt remaining st evs cur).2.1 cpid aid = none := by
  intro remaining
  induction remaining with
  | zero =>
    intro attempt st evs cur h
    rw [process_dtr_loop]
    split
    · split
      · exact h
      · exact lookup_delete_connection_none st cpid aid h
    · exact lookup_delete_connection_none st cpid aid h
  | succ r ih =>
    intro attempt st evs cur h
    rw [process_dtr_loop]
    split
    · split
      · exact h
      · exact ih _ _ _ _ (lookup_delete_connection_none st cpid aid h)
    · exact ih _ _ _ _ (lookup_delete_connection_none st cpid aid h)

theorem process_dtr_loop_evs_prefix (env : ShellsEnv)
    (cpid curl aid : String) (pols : List Policy) (fexpr : FilterExpr)
    (limit : Option Nat) (cursor : Option String) (mr : Nat) :
    ∀ (remaining attempt : Nat) (st : MgrState) (evs : List ConnEvent)
      (cur : DtrProcessResult),
      ∃ t, (process_dtr_loop env cpid curl aid pols fexpr limit cursor mr
        attempt remaining st evs cur).2.2 = evs ++ t := by
  intro remaining
  induction remaining with
  | zero =>
    intro attempt st evs cur
    rw [process_dtr_loop]
    split
    · split
      · exact ⟨[], by simp⟩
      · exact ⟨[ConnEvent.del_conn cpid curl fexpr pols], rfl⟩
    · exact ⟨[ConnEvent.del_conn cpid curl fexpr pols], rfl⟩
  | succ r ih =>
    intro attempt st evs cur
    rw [process_dtr_loop]
    split
    · split
      · exact ⟨[], by simp⟩
      · obtain ⟨t, ht⟩ := ih (attempt + 1)
          (delete_connection_mgr st cpid aid)
          (evs ++ [ConnEvent.del_conn cpid curl fexpr pols]) cur
        exact ⟨[ConnEvent.del_conn cpid curl fexpr pols] ++ t,
          by rw [ht, List.append_assoc]⟩
    · obtain ⟨t, ht⟩ := ih (attempt + 1)
        (delete_connection_mgr st cpid aid)
        (evs ++ [ConnEvent.del_conn cpid curl fexpr pols]) cur
      exact ⟨[ConnEvent.del_conn cpid curl fexpr pols] ++ t,
        by rw [ht, List.append_assoc]⟩

/-- C4 (amended): inside `_process_dtr_with_retry`, every failed attempt both
evicts the cached connection (a `delete_connection` call with the negotiation
query and policies whose checksums key the connection cache) and removes the
DTR's entry from the per-BPN cache — the removal is not deferred to terminal
failure: already after a failed first attempt the entry is gone, even when a
later retry succeeds.  Entries of any other `(BPN, asset id)` pair are never
touched. -/
theorem C4_failed_attempt_evicts_connection_and_cache_entry (env : ShellsEnv)
    (cfg : MgrConfig) (st : MgrState) (cpid : String) (dtr : DtrEntry)
    (qs : List (String × String)) (dps : Option (List Policy))
    (limit : Option Nat) (cursor : Option String)
    (hp : effective_policies dps dtr ≠ [])
    (hwf : shardNodup st cpid) :
    (∀ b a, b ≠ cpid ∨ a ≠ dtr.asset_id →
      lookup_dtr
        (process_dtr_with_retry env cfg st cpid dtr qs dps 2 limit cursor).2.1
        b a = lookup_dtr st b a) ∧
    (isFailure (env.attempt dtr.asset_id 0 limit cursor) = true →
      lookup_dtr
        (process_dtr_with_retry env cfg st cpid dtr qs dps 2 limit cursor).2.1
        cpid dtr.asset_id = none ∧
      ConnEvent.del_conn cpid dtr.connector_url (mkFexpr cfg)
          (effective_policies dps dtr) ∈
        (process_dtr_with_retry env cfg st cpid dtr qs dps 2 limit cursor).2.2) := by
  have hpe : (effective_policies dps dtr).isEmpty = false := by
    cases hx : effective_policies dps dtr with
    | nil => exact absurd hx hp
    | cons y ys => simp
  constructor
  · intro b a h
    unfold process_dtr_with_retry
    rw [hpe]
    simp only [Bool.false_eq_true, if_false]
    exact process_dtr_loop_frame env cpid dtr.connector_url dtr.asset_id
      (effective_policies dps dtr) (mkFexpr cfg) limit cursor 2 2 0 st [] _ b a h
  · intro hfail
    unfold process_dtr_with_retry
    rw [hpe]
    simp only [Bool.false_eq_true, if_false]
    rw [process_dtr_loop]
    cases hatt : env.attempt dtr.asset_id 0 limit cursor with
    | http code ids pcursor =>
      have hcode : (code == 200) = false := by
        cases hc : (code == 200) with
        | false => rfl
        | true =>
          rw [hatt] at hfail
          have hc2 : code = 200 := by simpa using hc
          simp [isFailure, hc2] at hfail
      simp only [hatt, hcode, Bool.false_eq_true, if_false]
      constructor
      · exact process_dtr_loop_none env cpid dtr.connector_url dtr.asset_id
          (effective_policies dps dtr) (mkFexpr cfg) limit cursor 2 1 1 _ _ _
          (lookup_delete_connection_self st cpid dtr.asset_id hwf)
      · obtain ⟨t, ht⟩ := process_dtr_loop_evs_prefix env cpid dtr.connector_url
          dtr.asset_id (effective_policies dps dtr) (mkFexpr cfg) limit cursor 2
          1 1 (delete_connection_mgr st cpid dtr.asset_id)
          ([] ++ [ConnEvent.del_conn cpid dtr.connector_url (mkFexpr cfg)
            (effective_policies dps dtr)]) _
        rw [ht]
        simp
    | raiseExc msg =>
      simp only [hatt]
      constructor
      · exact process_dtr_loop_none env cpid dtr.connector_url dtr.asset_id
          (effective_policies dps dtr) (mkFexpr cfg) limit cursor 2 1 1 _ _ _
          (lookup_delete_connection_self st cpid dtr.asset_id hwf)
      · obtain ⟨t, ht⟩ := process_dtr_loop_evs_prefix env cpid dtr.connector_url
          dtr.asset_id (effective_policies dps dtr) (mkFexpr cfg) limit cursor 2
          1 1 (delete_connection_mgr st cpid dtr.asset_id)
          ([] ++ [ConnEvent.del_conn cpid dtr.connector_url (mkFexpr cfg)
            (effective_policies dps dtr)]) _
        rw [ht]
        simp

/-- Witness for `C4_failed_attempt_evicts_connection_and_cache_entry` at the
concrete run whose first attempt fails with HTTP 500. -/
theorem C4_failed_attempt_evicts_witness :
    lookup_dtr
      (process_dtr_with_retry envC4 cfgQuiet stOneDtr "BPN1" entryA [] none 2
        none none).2.1 "BPN1" "A" = none ∧
    ConnEvent.del_conn "BPN1" "edc-1" (mkFexpr cfgQuiet) [Policy.strP "pol"] ∈
      (process_dtr_with_retry envC4 cfgQuiet stOneDtr "BPN1" entryA [] none 2
        none none).2.2 ∧
    lookup_dtr
      (process_dtr_with_retry envC4 cfgQuiet stOneDtr "BPN1" entryA [] none 2
        none none).2.1 "BPN2" "A" = lookup_dtr stOneDtr "BPN2" "A" :=
  ⟨((C4_failed_attempt_evicts_connection_and_cache_entry envC4 cfgQuiet stOneDtr
      "BPN1" entryA [] none none none (by decide) (by decide)).2
      (by decide)).1,
   ((C4_failed_attempt_evicts_connection_and_cache_entry envC4 cfgQuiet stOneDtr
      "BPN1" entryA [] none none none (by decide) (by decide)).2
      (by decide)).2,
   (C4_failed_attempt_evicts_connection_and_cache_entry envC4 cfgQuiet stOneDtr
      "BPN1" entryA [] none none none (by decide) (by decide)).1 "BPN2" "A"
     (Or.inl (by decide))⟩

/-- C4 (counterexample): the claim said the DTR entry is removed from the
per-BPN cache only on terminal failure.  Here attempt 0 fails and attempt 1
succeeds — the overall call ends `connected`, yet the entry for asset `A` is
already gone from the cache. -/
theorem C4_entry_removed_despite_retry_success :
    (process_dtr_with_retry envC4 cfgQuiet stOneDtr "BPN1" entryA [] none 2
      none none).1.status = "connected" ∧
    lookup_dtr
      (process_dtr_with_retry envC4 cfgQuiet stOneDtr "BPN1" entryA [] none 2
        none none).2.1 "BPN1" "A" = none := by
  refine ⟨by decide, by decide⟩

/-! ## Claim C3: `discover_shells` with `limit = 0` -/

theorem shells_loop_limit_congr (env : ShellsEnv) (cfg : MgrConfig)
    (cpid : String) (qs : List (String × String)) (dps : Option (List Policy))
    (l1 l2 per : Option Nat) (states : List (String × DtrPaginationState))
    (h1 : optNatTruthy l1 = false) (h2 : optNatTruthy l2 = false) :
    ∀ (dtrs : List DtrEntry) (st : MgrState) (all : List String)
      (results : List DtrProcessResult)
      (new : List (String × DtrPaginationState)) (evs : List ConnEvent),
      shells_loop env cfg cpid qs dps l1 per states dtrs st all results new evs =
      shells_loop env cfg cpid qs dps l2 per states dtrs st all results new evs := by
  intro dtrs
  induction dtrs with
  | nil => intro st all results new evs; rfl
  | cons d rest ih =>
    intro st all results new evs
    rw [shells_loop, shells_loop]
    by_cases hex :
      ((findVal states d.asset_id).getD { asset_id := d.asset_id }).exhausted
    · simp only [hex, if_true]
      exact ih _ _ _ _ _
    · simp only [hex, Bool.false_eq_true, if_false]
      cases hp : process_dtr_with_retry env cfg st cpid d qs dps 2 per
          ((findVal states d.asset_id).getD { asset_id := d.asset_id }).cursor with
      | mk res rest2 =>
        simp only [h1, h2, Bool.false_and, Bool.false_eq_true, if_false]
        exact ih _ _ _ _ _

/-- C3 (amended): `limit = 0` is accepted but treated exactly like "no
limit": the shell descriptors, per-DTR results and `shellsFound` of a
`limit=0` call coincide with those of the unbounded call (no per-DTR limit,
no truncation, so all discovered shells are returned rather than zero); the
cursor-compatibility check is still enforced — when DTRs exist, a cursor
carrying any other limit is rejected with the `LIMIT_MISMATCH` message. -/
theorem C3_limit_zero_behaves_as_unbounded (env : ShellsEnv) (cfg : MgrConfig)
    (st : MgrState) (cpid : String) (qs : List (String × String))
    (dps : Option (List Policy)) :
    ((discover_shells env cfg st cpid qs dps (some 0) none).1.shellDescriptors =
       (discover_shells env cfg st cpid qs dps none none).1.shellDescriptors ∧
     (discover_shells env cfg st cpid qs dps (some 0) none).1.dtrs =
       (discover_shells env cfg st cpid qs dps none none).1.dtrs ∧
     (discover_shells env cfg st cpid qs dps (some 0) none).1.shellsFound =
       (discover_shells env cfg st cpid qs dps none none).1.shellsFound) ∧
    (∀ p : PageState, p.limit ≠ some 0 →
      ((get_dtrs env.disc cfg st cpid).1.getD []).isEmpty = false →
      (discover_shells env cfg st cpid qs dps (some 0) (some p)).1.error =
        some (limit_mismatch_msg p.limit (some 0))) := by
  constructor
  · unfold discover_shells
    cases hg : get_dtrs env.disc cfg st cpid with
    | mk dtrsOpt st1 =>
      by_cases hde : (dtrsOpt.getD []).isEmpty
      · simp [hde]
      · simp only [hde, Bool.false_eq_true, if_false, PageState.dtr_states,
          show optNatTruthy (some 0) = false from by decide,
          show optNatTruthy (none : Option Nat) = false from by decide,
          if_false, Option.isSome_some, Option.isSome_none, Bool.true_or,
          Bool.or_self, if_true]
        rw [shells_loop_limit_congr env cfg cpid qs dps (some 0) none none []
          (by decide) (by decide)]
        simp
  · intro p hne hdtrs
    unfold discover_shells
    cases hg : get_dtrs env.disc cfg st cpid with
    | mk dtrsOpt st1 =>
      rw [hg] at hdtrs
      simp only at hdtrs
      have hcomp : is_cursor_compatible (decode_page_token p) (some 0) = false := by
        unfold is_cursor_compatible decode_page_token
        simpa using hne
      simp only [hdtrs, hcomp]
      simp [decode_page_token]

/-- C3 (counterexample): with one fresh cached DTR whose lookup yields two
shells, a `discover_shells` call with `limit = 0` returns both shells — not
zero. -/
theorem C3_limit_zero_returns_all_shells :
    (discover_shells envC3 cfgQuiet stOneDtr "BPN1" [] none (some 0)
      none).1.shellsFound = 2 ∧
    (discover_shells envC3 cfgQuiet stOneDtr "BPN1" [] none (some 0)
      none).1.shellDescriptors = [shellS1, shellS2] := by
  refine ⟨by decide, by decide⟩

/-! ## Pipeline key/length machinery (claims C8, C6, C10) -/

theorem foldl_proj_eq {β γ : Type} (P : SubmodelsResponse → γ)
    (f : SubmodelsResponse → β → SubmodelsResponse)
    (h : ∀ r b, P (f r b) = P r) :
    ∀ (l : List β) (r : SubmodelsResponse), P (l.foldl f r) = P r := by
  intro l
  induction l with
  | nil => intro r; rfl
  | cons b rest ih =>
    intro r
    rw [List.foldl_cons, ih, h]

theorem mark_failed_keys (grouped : List (String × AssetInfo))
    (tokens errors : List (String × String)) (r : SubmodelsResponse) :
    (mark_failed_negotiations grouped tokens errors r).submodelDescriptors.map
        Prod.fst =
      r.submodelDescriptors.map Prod.fst := by
  unfold mark_failed_negotiations
  refine foldl_proj_eq (fun r => r.submodelDescriptors.map Prod.fst) _ ?_ _ r
  intro r2 p
  refine foldl_proj_eq (fun r => r.submodelDescriptors.map Prod.fst) _ ?_ _ r2
  intro r3 item
  exact keys_modVal _ _ _

theorem fetch_data_keys (env : BatchEnv) (items : List SubmodelInfo)
    (tokens : List (String × String)) (r : SubmodelsResponse) :
    (fetch_data_parallel env items tokens r).submodelDescriptors.map Prod.fst =
      r.submodelDescriptors.map Prod.fst := by
  unfold fetch_data_parallel
  refine foldl_proj_eq (fun r => r.submodelDescriptors.map Prod.fst) _ ?_ _ r
  intro r2 it
  by_cases hj : jsonTruthy (env.fetchData it.submodel_id it.href
      ((findVal tokens it.assetId).getD ""))
  · simp only [hj, if_true]
    exact keys_modVal _ _ _
  · simp only [hj, Bool.false_eq_true, if_false]
    exact keys_modVal _ _ _

theorem mark_remaining_keys (items : List SubmodelInfo) (r : SubmodelsResponse) :
    (mark_remaining_pending_as_failed items r).submodelDescriptors.map Prod.fst =
      r.submodelDescriptors.map Prod.fst := by
  unfold mark_remaining_pending_as_failed
  refine foldl_proj_eq (fun r => r.submodelDescriptors.map Prod.fst) _ ?_ _ r
  intro r2 it
  simpa using keys_modVal r2.submodelDescriptors it.submodel_id _

theorem fetch_submodels_keys (env : BatchEnv) (items : List SubmodelInfo)
    (r : SubmodelsResponse) :
    (fetch_submodels_data env items r).submodelDescriptors.map Prod.fst =
      r.submodelDescriptors.map Prod.fst := by
  unfold fetch_submodels_data
  rw [mark_remaining_keys, fetch_data_keys, mark_failed_keys]

theorem build_descriptors_keys (gov : Option (List (String × List Policy))) :
    ∀ (sds : List Submodel) (resp : SubmodelsResponse)
      (queue : List SubmodelInfo),
      (build_descriptors gov sds resp queue).1.submodelDescriptors.map Prod.fst =
        insKeys (resp.submodelDescriptors.map Prod.fst)
          (sds.map (fun sd => sd.id.getD "unknown")) := by
  intro sds
  induction sds with
  | nil => intro resp queue; rfl
  | cons sd rest ih =>
    intro resp queue
    unfold build_descriptors
    rw [List.foldl_cons]
    unfold build_descriptors at ih
    rw [ih]
    unfold insKeys
    rw [List.map_cons, List.foldl_cons]
    congr 1
    rw [keys_setVal]
    have : (build_descriptor gov sd).submodelId = sd.id.getD "unknown" := rfl
    rw [this]

theorem insKeys_nodup_toFinset :
    ∀ (ids ks : List String), ks.Nodup →
      (insKeys ks ids).Nodup ∧
      (insKeys ks ids).toFinset = ks.toFinset ∪ ids.toFinset := by
  intro ids
  induction ids with
  | nil =>
    intro ks h
    exact ⟨h, by simp [insKeys]⟩
  | cons k rest ih =>
    intro ks h
    by_cases hk : k ∈ ks
    · have step : insKeys ks (k :: rest) = insKeys ks rest := by
        unfold insKeys
        rw [List.foldl_cons, if_pos hk]
      rw [step]
      obtain ⟨h1, h2⟩ := ih ks h
      refine ⟨h1, ?_⟩
      rw [h2]
      ext a
      simp only [Finset.mem_union, List.mem_toFinset, List.mem_cons]
      constructor
      · rintro (ha | ha)
        · exact Or.inl ha
        · exact Or.inr (Or.inr ha)
      · rintro (ha | rfl | ha)
        · exact Or.inl ha
        · exact Or.inl hk
        · exact Or.inr ha
    · have step : insKeys ks (k :: rest) = insKeys (ks ++ [k]) rest := by
        unfold insKeys
        rw [List.foldl_cons, if_neg hk]
      rw [step]
      have hdisj : ks.Disjoint [k] := by
        intro a ha hb
        rw [List.mem_singleton] at hb
        subst hb
        exact hk ha
      have hnd : (ks ++ [k]).Nodup := by
        rw [List.nodup_append]
        exact ⟨h, List.nodup_singleton k, hdisj⟩
      obtain ⟨h1, h2⟩ := ih (ks ++ [k]) hnd
      refine ⟨h1, ?_⟩
      rw [h2]
      ext a
      simp only [Finset.mem_union, List.mem_toFinset, List.mem_append,
        List.mem_cons, List.mem_singleton]
      tauto

/-! ## Claim C8: descriptor-map size vs `submodelsFound` -/

/-- C8 (counterexample): a shell whose descriptor list repeats the submodel
id `dup` yields a `submodelDescriptors` map with a single entry while
`submodelsFound` is 2 — so the claimed equality of the map size with the
shell's descriptor count fails for repeated ids. -/
theorem C8_repeated_ids_collapse_map :
    (discover_submodels envIdle (.ok (shellDup, dtrInfoW)) none).submodelsFound
      = 2 ∧
    (discover_submodels envIdle
      (.ok (shellDup, dtrInfoW)) none).submodelDescriptors.length = 1 := by
  refine ⟨by decide, by decide⟩

/-- C8 (amended): for every successful `discover_submodels`,
`submodelsFound` equals the number of descriptors in the resolved shell's
list, while the returned `submodelDescriptors` map has one entry per
*distinct* submodel id; the two counts coincide exactly when the shell's
submodel ids are pairwise distinct (repeated ids collapse into one map
entry). -/
theorem C8_found_count_and_map_size (env : BatchEnv) (shell : Shell)
    (dtri : DtrInfo) (gov : Option (List (String × List Policy))) :
    (discover_submodels env (.ok (shell, dtri)) gov).submodelsFound =
      shell.submodelDescriptors.length ∧
    (discover_submodels env (.ok (shell, dtri)) gov).submodelDescriptors.length
      = (shell.submodelDescriptors.map (fun sd => sd.id.getD "unknown")).dedup.length ∧
    ((shell.submodelDescriptors.map (fun sd => sd.id.getD "unknown")).Nodup →
      (discover_submodels env
        (.ok (shell, dtri)) gov).submodelDescriptors.length =
        shell.submodelDescriptors.length) := by
  have hlen :
      (discover_submodels env (.ok (shell, dtri)) gov).submodelDescriptors.length
        = (shell.submodelDescriptors.map (fun sd => sd.id.getD "unknown")).dedup.length := by
    unfold discover_submodels
    by_cases hemp : shell.submodelDescriptors.isEmpty
    · have : shell.submodelDescriptors = [] := by
        simpa [List.isEmpty_iff] using hemp
      simp [hemp, this]
    · simp only [hemp, Bool.false_eq_true, if_false]
      cases hb : build_descriptors gov shell.submodelDescriptors
          { submodelDescriptors := [], submodels := [], submodelsFound := 0,
            dtr := some dtri, error := none } [] with
      | mk resp1 queue =>
        have hkeys : resp1.submodelDescriptors.map Prod.fst =
            insKeys [] (shell.submodelDescriptors.map (fun sd => sd.id.getD "unknown")) := by
          have := build_descriptors_keys gov shell.submodelDescriptors
            { submodelDescriptors := [], submodels := [], submodelsFound := 0,
              dtr := some dtri, error := none } []
          rw [hb] at this
          simpa using this
        obtain ⟨hnd, hfin⟩ := insKeys_nodup_toFinset
          (shell.submodelDescriptors.map (fun sd => sd.id.getD "unknown")) []
          List.nodup_nil
        have hcount : resp1.submodelDescriptors.length =
            (shell.submodelDescriptors.map (fun sd => sd.id.getD "unknown")).dedup.length := by
          have h1 : resp1.submodelDescriptors.length =
              (resp1.submodelDescriptors.map Prod.fst).length :=
            (List.length_map _ _).symm
          rw [h1, hkeys]
          have h2 := List.toFinset_card_of_nodup hnd
          rw [hfin] at h2
          simp only [List.toFinset_nil, Finset.empty_union] at h2
          rw [← h2, List.card_toFinset]
        by_cases hq : queue.isEmpty
        · simp only [hq, if_true]
          exact hcount
        · simp only [hq, Bool.false_eq_true, if_false]
          have := fetch_submodels_keys env queue resp1
          have hlen2 : (fetch_submodels_data env queue resp1).submodelDescriptors.length
              = resp1.submodelDescriptors.length := by
            have e1 : (fetch_submodels_data env queue resp1).submodelDescriptors.length =
                ((fetch_submodels_data env queue resp1).submodelDescriptors.map Prod.fst).length :=
              (List.length_map _ _).symm
            rw [e1, this, List.length_map]
          simpa [hlen2] using hcount
  refine ⟨?_, hlen, ?_⟩
  · unfold discover_submodels
    by_cases hemp : shell.submodelDescriptors.isEmpty
    · have : shell.submodelDescriptors = [] := by
        simpa [List.isEmpty_iff] using hemp
      simp [hemp, this]
    · simp only [hemp, Bool.false_eq_true, if_false]
  · intro hnodup
    rw [hlen, List.Nodup.dedup hnodup, List.length_map]

/-! ## Generic fold-characterisation lemmas for the submodel pipeline -/

theorem findVal_isSome_of_mem {α : Type} (m : List (String × α)) (k : String)
    (h : k ∈ m.map Prod.fst) : (findVal m k).isSome := by
  induction m with
  | nil => simp at h
  | cons p rest ih =>
    obtain ⟨k', v'⟩ := p
    by_cases hk : k' = k
    · simp [findVal, hk]
    · rw [findVal, if_neg hk]
      simp only [List.map_cons, List.mem_cons] at h
      rcases h with h | h
      · exact absurd h.symm hk
      · exact ih h

theorem findVal_append_single_ne {α : Type} (m : List (String × α))
    (k : String) (z : α) (q : String) (h : q ≠ k) :
    findVal (m ++ [(k, z)]) q = findVal m q := by
  induction m with
  | nil =>
    have : ¬k = q := fun hh => h hh.symm
    simp [findVal, this]
  | cons p rest ih =>
    obtain ⟨k', v'⟩ := p
    by_cases hk : k' = q <;> simp [findVal, hk, ih]

theorem findVal_append_single_self {α : Type} (m : List (String × α))
    (k : String) (z : α) (h : k ∉ m.map Prod.fst) :
    findVal (m ++ [(k, z)]) k = some z := by
  induction m with
  | nil => simp [findVal]
  | cons p rest ih =>
    obtain ⟨k', v'⟩ := p
    simp only [List.map_cons, List.mem_cons] at h
    push_neg at h
    have : ¬k' = k := fun hh => h.1 hh.symm
    simp [findVal, this, ih h.2]

/-- Uniform characterisation of a fold whose every step rewrites the
descriptor stored under its element's key with an idempotent transformer
that is the same for every element carrying the key `s`. -/
theorem gen_fold_uniform {β : Type} (key : β → String)
    (F : β → SubmodelDescriptor → SubmodelDescriptor)
    (step : SubmodelsResponse → β → SubmodelsResponse)
    (hstep : ∀ r b, (step r b).submodelDescriptors =
      modVal r.submodelDescriptors (key b) (F b))
    (f0 : SubmodelDescriptor → SubmodelDescriptor)
    (hid : ∀ d, f0 (f0 d) = f0 d) :
    ∀ (L : List β) (r : SubmodelsResponse) (s : String),
      (∀ q ∈ L, key q = s → F q = f0) →
      findVal ((L.foldl step r)).submodelDescriptors s =
        if s ∈ L.map key then (findVal r.submodelDescriptors s).map f0
        else findVal r.submodelDescriptors s := by
  intro L
  induction L with
  | nil => intro r s huni; simp
  | cons q rest ih =>
    intro r s huni
    rw [List.foldl_cons]
    by_cases hk : key q = s
    · have hFq : F q = f0 := huni q (List.mem_cons_self q rest) hk
      have hsr : findVal (step r q).submodelDescriptors s =
          (findVal r.submodelDescriptors s).map f0 := by
        rw [hstep, findVal_modVal, if_pos hk, hFq]
      rw [ih (step r q) s (fun x hx hxs => huni x (List.mem_cons_of_mem q hx) hxs)]
      by_cases hmem : s ∈ rest.map key
      · rw [if_pos hmem, hsr]
        have : s ∈ (q :: rest).map key := by
          simp [List.mem_cons, hk]
        rw [if_pos this]
        cases hfv : findVal r.submodelDescriptors s with
        | none => rfl
        | some d => simp [hid]
      · rw [if_neg hmem, hsr]
        have : s ∈ (q :: rest).map key := by
          simp [List.mem_cons, hk]
        rw [if_pos this]
    · have hsr : findVal (step r q).submodelDescriptors s =
          findVal r.submodelDescriptors s := by
        rw [hstep, findVal_modVal, if_neg hk]
      rw [ih (step r q) s (fun x hx hxs => huni x (List.mem_cons_of_mem q hx) hxs),
        hsr]
      by_cases hmem : s ∈ rest.map key
      · rw [if_pos hmem]
        have : s ∈ (q :: rest).map key := by
          simp [List.mem_cons, hmem]
        rw [if_pos this]
      · rw [if_neg hmem]
        have : s ∉ (q :: rest).map key := by
          simp only [List.map_cons, List.mem_cons]
          push_neg
          exact ⟨fun hh => hk hh.symm, hmem⟩
        rw [if_neg this]

/-- Analogue of `gen_fold_uniform` for the `submodels` data map: every step
stores its element's payload (when present) under its element's key. -/
theorem gen_fold_submodels {β : Type} (key : β → String) (G : β → Option Json)
    (step : SubmodelsResponse → β → SubmodelsResponse)
    (hstep : ∀ r b, (step r b).submodels =
      match G b with
      | some j => setVal r.submodels (key b) j
      | none => r.submodels)
    (j0 : Option Json) :
    ∀ (L : List β) (r : SubmodelsResponse) (s : String),
      (∀ q ∈ L, key q = s → G q = j0) →
      findVal ((L.foldl step r)).submodels s =
        if s ∈ L.map key then
          (match j0 with
           | some j => some j
           | none => findVal r.submodels s)
        else findVal r.submodels s := by
  intro L
  induction L with
  | nil => intro r s huni; simp
  | cons q rest ih =>
    intro r s huni
    rw [List.foldl_cons]
    have hrec := ih (step r q) s (fun x hx hxs => huni x (List.mem_cons_of_mem q hx) hxs)
    by_cases hk : key q = s
    · have hGq : G q = j0 := huni q (List.mem_cons_self q rest) hk
      have hmem2 : s ∈ (q :: rest).map key := by
        simp [List.mem_cons, hk]
      rw [hrec, if_pos hmem2]
      cases j0 with
      | some j =>
        have hsr : findVal (step r q).submodels s = some j := by
          rw [hstep, hGq, findVal_setVal, if_pos hk]
        by_cases hmem : s ∈ rest.map key
        · rw [if_pos hmem]
        · rw [if_neg hmem, hsr]
      | none =>
        have hsr : findVal (step r q).submodels s = findVal r.submodels s := by
          rw [hstep, hGq]
        by_cases hmem : s ∈ rest.map key
        · rw [if_pos hmem, hsr]
        · rw [if_neg hmem, hsr]
    · have hsr : findVal (step r q).submodels s = findVal r.submodels s := by
        rw [hstep]
        cases hGq : G q with
        | none => rfl
        | some j => rw [findVal_setVal, if_neg hk]
      rw [hrec, hsr]
      by_cases hmem : s ∈ rest.map key
      · rw [if_pos hmem]
        have : s ∈ (q :: rest).map key := by
          simp [List.mem_cons, hmem]
        rw [if_pos this]
      · rw [if_neg hmem]
        have : s ∉ (q :: rest).map key := by
          simp only [List.map_cons, List.mem_cons]
          push_neg
          exact ⟨fun hh => hk hh.symm, hmem⟩
        rw [if_neg this]

theorem foldl_flatten {α β γ : Type} (g : α → List β) (f : γ → β → γ) :
    ∀ (l : List α) (init : γ),
      (l.foldl (fun acc a => (g a).foldl f acc) init) =
        (l.flatMap g).foldl f init := by
  intro l
  induction l with
  | nil => intro init; rfl
  | cons a rest ih =>
    intro init
    rw [List.foldl_cons, ih, List.flatMap_cons, List.foldl_append]

theorem mem_setVal {α : Type} (m : List (String × α)) (k : String) (v : α)
    (p : String × α) (h : p ∈ setVal m k v) : p ∈ m ∨ p = (k, v) := by
  induction m with
  | nil =>
    simp only [setVal, List.mem_singleton] at h
    exact Or.inr h
  | cons q rest ih =>
    obtain ⟨k', v'⟩ := q
    by_cases hk : k' = k
    · rw [setVal, if_pos hk] at h
      rcases List.mem_cons.mp h with h | h
      · exact Or.inr h
      · exact Or.inl (List.mem_cons_of_mem _ h)
    · rw [setVal, if_neg hk] at h
      rcases List.mem_cons.mp h with h | h
      · exact Or.inl (h ▸ List.mem_cons_self _ _)
      · rcases ih h with h | h
        · exact Or.inl (List.mem_cons_of_mem _ h)
        · exact Or.inr h

/-- Full characterisation of the `_group_submodels_by_asset` fold, for an
arbitrary starting accumulator with valid, duplicate-free keys: keys stay
valid and duplicate-free, a key is present iff some queued item carries it
(or it was already present), and each bucket's `submodels` are exactly the
queued items carrying its asset id, in order. -/
theorem group_foldl_spec (items : List SubmodelInfo) :
    ∀ acc : List (String × AssetInfo),
      (∀ p ∈ acc, p.1 ≠ "" ∧ p.1 ≠ "unknown") →
      ((acc.map Prod.fst).Nodup) →
      ((∀ p ∈ items.foldl (fun acc item =>
          if item.assetId ≠ "" && item.assetId ≠ "unknown" then
            match findVal acc item.assetId with
            | none =>
              acc ++ [(item.assetId,
                { connectorUrl := item.connectorUrl, policies := item.policies,
                  submodels := [item] })]
            | some info =>
              setVal acc item.assetId
                { info with submodels := info.submodels ++ [item] }
          else acc) acc, p.1 ≠ "" ∧ p.1 ≠ "unknown") ∧
       ((items.foldl (fun acc item =>
          if item.assetId ≠ "" && item.assetId ≠ "unknown" then
            match findVal acc item.assetId with
            | none =>
              acc ++ [(item.assetId,
                { connectorUrl := item.connectorUrl, policies := item.policies,
                  submodels := [item] })]
            | some info =>
              setVal acc item.assetId
                { info with submodels := info.submodels ++ [item] }
          else acc) acc).map Prod.fst).Nodup ∧
       (∀ a, a ∈ (items.foldl (fun acc item =>
          if item.assetId ≠ "" && item.assetId ≠ "unknown" then
            match findVal acc item.assetId with
            | none =>
              acc ++ [(item.assetId,
                { connectorUrl := item.connectorUrl, policies := item.policies,
                  submodels := [item] })]
            | some info =>
              setVal acc item.assetId
                { info with submodels := info.submodels ++ [item] }
          else acc) acc).map Prod.fst ↔
          (a ∈ acc.map Prod.fst ∨
            (a ≠ "" ∧ a ≠ "unknown" ∧ ∃ it ∈ items, it.assetId = a))) ∧
       (∀ a info, findVal (items.foldl (fun acc item =>
          if item.assetId ≠ "" && item.assetId ≠ "unknown" then
            match findVal acc item.assetId with
            | none =>
              acc ++ [(item.assetId,
                { connectorUrl := item.connectorUrl, policies := item.policies,
                  submodels := [item] })]
            | some info =>
              setVal acc item.assetId
                { info with submodels := info.submodels ++ [item] }
          else acc) acc) a = some info →
          info.submodels =
            (match findVal acc a with
             | some i0 => i0.submodels
             | none => []) ++ items.filter (fun it => it.assetId == a))) := by
  induction items with
  | nil =>
    intro acc hv hnd
    refine ⟨hv, hnd, ?_, ?_⟩
    · intro a
      simp
    · intro a info h
      simp only [List.foldl_nil] at h
      rw [h]
      simp
  | cons item rest ih =>
    intro acc hv hnd
    by_cases hval : item.assetId = "" ∨ item.assetId = "unknown"
    · have hcond : (item.assetId ≠ "" && item.assetId ≠ "unknown") = false := by
        rcases hval with h | h <;> simp [h]
      simp only [List.foldl_cons, hcond, Bool.false_eq_true, if_false]
      obtain ⟨H1, H2, H3, H4⟩ := ih acc hv hnd
      refine ⟨H1, H2, ?_, ?_⟩
      · intro a
        rw [H3]
        constructor
        · rintro (h | ⟨h1, h2, it, hit, heq⟩)
          · exact Or.inl h
          · exact Or.inr ⟨h1, h2, it, List.mem_cons_of_mem _ hit, heq⟩
        · rintro (h | ⟨h1, h2, it, hit, heq⟩)
          · exact Or.inl h
          · rcases List.mem_cons.mp hit with hh | hh
            · subst hh
              subst heq
              rcases hval with h | h
              · exact absurd h h1
              · exact absurd h h2
            · exact Or.inr ⟨h1, h2, it, hh, heq⟩
      · intro a info h
        have hmem : a ∈ (rest.foldl _ acc).map Prod.fst :=
          mem_of_findVal_isSome _ a (by rw [h]; rfl)
        obtain ⟨p, hp, hpa⟩ := List.mem_map.mp hmem
        have hvalid := H1 p hp
        have hne : (item.assetId == a) = false := by
          have : item.assetId ≠ a := by
            intro hh
            rcases hval with hx | hx
            · exact hvalid.1 (by rw [hpa, ← hh, hx])
            · exact hvalid.2 (by rw [hpa, ← hh, hx])
          simpa using this
        rw [H4 a info h]
        rw [List.filter_cons]
        rw [hne]
        simp
    · have h1 : item.assetId ≠ "" := fun h => hval (Or.inl h)
      have h2 : item.assetId ≠ "unknown" := fun h => hval (Or.inr h)
      have hcond : (item.assetId ≠ "" && item.assetId ≠ "unknown") = true := by
        simp [h1, h2]
      cases hfa : findVal acc item.assetId with
      | none =>
        have hnotmem : item.assetId ∉ acc.map Prod.fst := by
          intro hmem
          have := findVal_isSome_of_mem acc item.assetId hmem
          rw [hfa] at this
          simp at this
        have hv' : ∀ p ∈ acc ++ [(item.assetId,
            ({ connectorUrl := item.connectorUrl, policies := item.policies,
               submodels := [item] } : AssetInfo))], p.1 ≠ "" ∧ p.1 ≠ "unknown" := by
          intro p hp
          rcases List.mem_append.mp hp with hp | hp
          · exact hv p hp
          · rw [List.mem_singleton] at hp
            subst hp
            exact ⟨h1, h2⟩
        have hnd' : ((acc ++ [(item.assetId,
            ({ connectorUrl := item.connectorUrl, policies := item.policies,
               submodels := [item] } : AssetInfo))]).map Prod.fst).Nodup := by
          rw [List.map_append]
          rw [List.nodup_append]
          refine ⟨hnd, List.nodup_singleton _, ?_⟩
          intro a ha hb
          simp only [List.map_cons, List.map_nil, List.mem_singleton] at hb
          subst hb
          exact hnotmem ha
        simp only [List.foldl_cons, hcond, if_true, hfa]
        obtain ⟨H1, H2, H3, H4⟩ := ih _ hv' hnd'
        refine ⟨H1, H2, ?_, ?_⟩
        · intro a
          rw [H3]
          have hacc : a ∈ (acc ++ [(item.assetId,
              ({ connectorUrl := item.connectorUrl, policies := item.policies,
                 submodels := [item] } : AssetInfo))]).map Prod.fst ↔
              (a ∈ acc.map Prod.fst ∨ a = item.assetId) := by
            rw [List.map_append]
            simp
          rw [hacc]
          constructor
          · rintro ((h | h) | ⟨ha1, ha2, it, hit, heq⟩)
            · exact Or.inl h
            · exact Or.inr ⟨h ▸ h1, h ▸ h2, item, List.mem_cons_self _ _, h.symm⟩
            · exact Or.inr ⟨ha1, ha2, it, List.mem_cons_of_mem _ hit, heq⟩
          · rintro (h | ⟨ha1, ha2, it, hit, heq⟩)
            · exact Or.inl (Or.inl h)
            · rcases List.mem_cons.mp hit with hh | hh
              · subst hh
                exact Or.inl (Or.inr heq.symm)
              · exact Or.inr ⟨ha1, ha2, it, hh, heq⟩
        · intro a info h
          rw [H4 a info h]
          by_cases ha : a = item.assetId
          · subst ha
            rw [findVal_append_single_self acc item.assetId _ hnotmem]
            rw [hfa]
            rw [List.filter_cons]
            simp
          · rw [findVal_append_single_ne acc item.assetId _ a ha]
            have hne : (item.assetId == a) = false := by
              simpa using fun hh => ha hh.symm
            rw [List.filter_cons, hne]
            simp
      | some info0 =>
        have hmem0 : item.assetId ∈ acc.map Prod.fst :=
          mem_of_findVal_isSome acc item.assetId (by rw [hfa]; rfl)
        have hv' : ∀ p ∈ setVal acc item.assetId
            { info0 with submodels := info0.submodels ++ [item] },
            p.1 ≠ "" ∧ p.1 ≠ "unknown" := by
          intro p hp
          rcases mem_setVal acc item.assetId _ p hp with hp | hp
          · exact hv p hp
          · subst hp
            exact ⟨h1, h2⟩
        have hkeys' : (setVal acc item.assetId
            { info0 with submodels := info0.submodels ++ [item] }).map Prod.fst =
            acc.map Prod.fst := by
          rw [keys_setVal, if_pos hmem0]
        have hnd' : ((setVal acc item.assetId
            { info0 with submodels := info0.submodels ++ [item] }).map
              Prod.fst).Nodup := by
          rw [hkeys']
          exact hnd
        simp only [List.foldl_cons, hcond, if_true, hfa]
        obtain ⟨H1, H2, H3, H4⟩ := ih _ hv' hnd'
        refine ⟨H1, H2, ?_, ?_⟩
        · intro a
          rw [H3, hkeys']
          constructor
          · rintro (h | ⟨ha1, ha2, it, hit, heq⟩)
            · exact Or.inl h
            · exact Or.inr ⟨ha1, ha2, it, List.mem_cons_of_mem _ hit, heq⟩
          · rintro (h | ⟨ha1, ha2, it, hit, heq⟩)
            · exact Or.inl h
            · rcases List.mem_cons.mp hit with hh | hh
              · subst hh
                subst heq
                exact Or.inl hmem0
              · exact Or.inr ⟨ha1, ha2, it, hh, heq⟩
        · intro a info h
          rw [H4 a info h]
          by_cases ha : a = item.assetId
          · subst ha
            rw [findVal_setVal, if_pos rfl, hfa]
            rw [List.filter_cons]
            simp [List.append_assoc]
          · have hx : ¬a = item.assetId := ha
            rw [findVal_setVal, if_neg (fun hh => hx hh.symm)]
            have hne : (item.assetId == a) = false := by
              simpa using fun hh => ha hh.symm
            rw [List.filter_cons, hne]
            simp

theorem nodup_map_inj {α β : Type} (f : α → β) (l : List α)
    (h : (l.map f).Nodup) :
    ∀ x ∈ l, ∀ y ∈ l, f x = f y → x = y := by
  induction l with
  | nil => intro x hx; simp at hx
  | cons a rest ih =>
    rw [List.map_cons, List.nodup_cons] at h
    intro x hx y hy hf
    rcases List.mem_cons.mp hx with hx2 | hx2 <;>
      rcases List.mem_cons.mp hy with hy2 | hy2
    · rw [hx2, hy2]
    · exfalso
      apply h.1
      rw [hx2] at hf
      rw [hf]
      exact List.mem_map_of_mem f hy2
    · exfalso
      apply h.1
      rw [hy2] at hf
      rw [← hf]
      exact List.mem_map_of_mem f hx2
    · exact ih h.2 x hx2 y hy2 hf

theorem findVal_of_mem_nodup {α : Type} (m : List (String × α))
    (hnd : (m.map Prod.fst).Nodup) (p : String × α) (hp : p ∈ m) :
    findVal m p.1 = some p.2 := by
  induction m with
  | nil => simp at hp
  | cons q rest ih =>
    obtain ⟨k', v'⟩ := q
    rw [List.map_cons, List.nodup_cons] at hnd
    rcases List.mem_cons.mp hp with hp2 | hp2
    · rw [hp2]
      simp [findVal]
    · have hne : k' ≠ p.1 := by
        intro h
        apply hnd.1
        rw [h]
        show p.1 ∈ List.map Prod.fst rest
        exact List.mem_map_of_mem Prod.fst hp2
      simp only [findVal, if_neg hne]
      exact ih hnd.2 hp2

theorem mem_of_findVal {α : Type} (m : List (String × α)) (k : String) (v : α)
    (h : findVal m k = some v) : (k, v) ∈ m := by
  induction m with
  | nil => simp [findVal] at h
  | cons q rest ih =>
    obtain ⟨k', v'⟩ := q
    by_cases hk : k' = k
    · subst hk
      have h2 : v' = v := by simpa [findVal] using h
      rw [← h2]
      exact List.mem_cons_self _ _
    · simp only [findVal, if_neg hk] at h
      exact List.mem_cons_of_mem _ (ih h)

/-- `_group_submodels_by_asset` summarised: every key is a valid asset id,
keys are pairwise distinct, a key is present iff some queued item carries it,
and each bucket holds exactly the queued items with its asset id, in order. -/
theorem group_spec (items : List SubmodelInfo) :
    (∀ p ∈ group_submodels_by_asset items, p.1 ≠ "" ∧ p.1 ≠ "unknown") ∧
    ((group_submodels_by_asset items).map Prod.fst).Nodup ∧
    (∀ a, a ∈ (group_submodels_by_asset items).map Prod.fst ↔
      (a ≠ "" ∧ a ≠ "unknown" ∧ ∃ it ∈ items, it.assetId = a)) ∧
    (∀ a info, findVal (group_submodels_by_asset items) a = some info →
      info.submodels = items.filter (fun it => it.assetId == a)) := by
  obtain ⟨H1, H2, H3, H4⟩ := group_foldl_spec items [] (by simp) (by simp)
  rw [group_submodels_by_asset]
  refine ⟨H1, H2, ?_, ?_⟩
  · intro a
    rw [H3]
    simp
  · intro a info h
    have := H4 a info h
    simpa using this

/-- `_negotiate_assets_parallel` unrolled: starting from any accumulator, the
fold appends one token entry per asset with a truthy negotiation and one
error entry per asset without. -/
theorem nap_foldl_eq (env : BatchEnv) :
    ∀ (g : List (String × AssetInfo))
      (acc : List (String × String) × List (String × String)),
      g.foldl
        (fun acc p =>
          match env.negotiateAsset p.1 with
          | .ret tok =>
            if optStrTruthy tok then (acc.1 ++ [(p.1, tok.getD "")], acc.2)
            else (acc.1, acc.2 ++ [(p.1, negGenericMsg)])
          | .raiseExc m => (acc.1, acc.2 ++ [(p.1, negGenericMsg ++ " " ++ m)]))
        acc =
      (acc.1 ++ g.filterMap (fun p => (negToken env p.1).map (fun t => (p.1, t))),
       acc.2 ++ g.filterMap (fun p => (negErr env p.1).map (fun m => (p.1, m)))) := by
  intro g
  induction g with
  | nil => intro acc; simp
  | cons p rest ih =>
    intro acc
    rw [List.foldl_cons]
    cases henv : env.negotiateAsset p.1 with
    | ret tok =>
      cases htr : optStrTruthy tok with
      | true =>
        simp only [henv, htr, if_true]
        rw [ih]
        simp [List.filterMap_cons, negToken, negErr, negDiag, henv, htr]
      | false =>
        simp only [henv, htr, Bool.false_eq_true, if_false]
        rw [ih]
        simp [List.filterMap_cons, negToken, negErr, negDiag, henv, htr]
    | raiseExc m =>
      simp only [henv]
      rw [ih]
      simp [List.filterMap_cons, negToken, negErr, negDiag, henv]

/-- `_negotiate_assets_parallel` as a pair of filtered maps over the grouped
assets: exactly one negotiation outcome per grouped asset. -/
theorem nap_spec (env : BatchEnv) (g : List (String × AssetInfo)) :
    negotiate_assets_parallel env g =
      (g.filterMap (fun p => (negToken env p.1).map (fun t => (p.1, t))),
       g.filterMap (fun p => (negErr env p.1).map (fun m => (p.1, m)))) := by
  rw [negotiate_assets_parallel, nap_foldl_eq]
  simp

theorem filterMap_keyed_lookup {α γ : Type} (h : String → Option γ) :
    ∀ (g : List (String × α)), ((g.map Prod.fst).Nodup) → ∀ a : String,
      findVal (g.filterMap (fun p => (h p.1).map (fun x => (p.1, x)))) a =
        if a ∈ g.map Prod.fst then h a else none := by
  intro g
  induction g with
  | nil => intro _ a; simp [findVal]
  | cons p rest ih =>
    intro hnd a
    rw [List.map_cons, List.nodup_cons] at hnd
    cases hh : h p.1 with
    | none =>
      have hfc : ((p :: rest).filterMap
          (fun q => (h q.1).map (fun x => (q.1, x)))) =
          rest.filterMap (fun q => (h q.1).map (fun x => (q.1, x))) := by
        rw [List.filterMap_cons_none]
        simp [hh]
      rw [hfc, ih hnd.2 a]
      by_cases ha : a = p.1
      · have hnm : a ∉ rest.map Prod.fst := by
          rw [ha]
          exact hnd.1
        simp [hnm, ha, hh]
      · have hiff : (a ∈ List.map Prod.fst (p :: rest)) ↔
            a ∈ List.map Prod.fst rest := by
          rw [List.map_cons, List.mem_cons]
          simp [ha]
        by_cases hm : a ∈ List.map Prod.fst rest
        · rw [if_pos hm, if_pos (hiff.mpr hm)]
        · rw [if_neg hm, if_neg (fun hc => hm (hiff.mp hc))]
    | some x =>
      have hfc : ((p :: rest).filterMap
          (fun q => (h q.1).map (fun x => (q.1, x)))) =
          (p.1, x) :: rest.filterMap (fun q => (h q.1).map (fun x => (q.1, x))) := by
        rw [List.filterMap_cons_some]
        simp [hh]
      rw [hfc]
      by_cases ha : a = p.1
      · rw [ha]
        simp [findVal, hh]
      · have hne : p.1 ≠ a := fun hc => ha hc.symm
        simp only [findVal, if_neg hne]
        rw [ih hnd.2 a]
        have hiff : (a ∈ List.map Prod.fst (p :: rest)) ↔
            a ∈ List.map Prod.fst rest := by
          rw [List.map_cons, List.mem_cons]
          simp [ha]
        by_cases hm : a ∈ List.map Prod.fst rest
        · rw [if_pos hm, if_pos (hiff.mpr hm)]
        · rw [if_neg hm, if_neg (fun hc => hm (hiff.mp hc))]

/-- Token lookup after `_negotiate_assets_parallel`: each grouped asset's
token is the outcome of its single negotiation. -/
theorem nap_tokens_lookup (env : BatchEnv) (g : List (String × AssetInfo))
    (hnd : (g.map Prod.fst).Nodup) (a : String) :
    findVal (negotiate_assets_parallel env g).1 a =
      if a ∈ g.map Prod.fst then negToken env a else none := by
  rw [nap_spec]
  exact filterMap_keyed_lookup (negToken env) g hnd a

/-- Error lookup after `_negotiate_assets_parallel`. -/
theorem nap_errors_lookup (env : BatchEnv) (g : List (String × AssetInfo))
    (hnd : (g.map Prod.fst).Nodup) (a : String) :
    findVal (negotiate_assets_parallel env g).2 a =
      if a ∈ g.map Prod.fst then negErr env a else none := by
  rw [nap_spec]
  exact filterMap_keyed_lookup (negErr env) g hnd a

theorem errorify_idem (m : String) (d : SubmodelDescriptor) :
    errorify m (errorify m d) = errorify m d := rfl

theorem pendFail_idem (d : SubmodelDescriptor) :
    pendFail (pendFail d) = pendFail d := by
  by_cases hd : d.status == "pending"
  · simp [pendFail, hd, errorify]
  · simp [pendFail, hd]

theorem pendFail_errorify (m : String) (d : SubmodelDescriptor) :
    pendFail (errorify m d) = errorify m d := by
  simp [pendFail, errorify]

/-- `_mark_failed_negotiations` flattened into a single fold over
(message, item) pairs. -/
theorem mf_flatten (g : List (String × AssetInfo))
    (tokens errors : List (String × String)) (resp : SubmodelsResponse) :
    mark_failed_negotiations g tokens errors resp =
      ((g.filter (fun p => (findVal tokens p.1).isNone)).flatMap
        (fun p => p.2.submodels.map
          (fun it => ((findVal errors p.1).getD negGenericMsg, it)))).foldl
        (fun r mi =>
          { r with
            submodelDescriptors :=
              modVal r.submodelDescriptors mi.2.submodel_id (errorify mi.1) })
        resp := by
  rw [mark_failed_negotiations, ← foldl_flatten]
  congr 1
  funext r p
  rw [List.foldl_map]

/-- Lookup after `_mark_failed_negotiations` when every flattened entry at
the key carries the same message. -/
theorem mf_lookup (g : List (String × AssetInfo))
    (tokens errors : List (String × String)) (resp : SubmodelsResponse)
    (s M : String)
    (huni : ∀ p ∈ g.filter (fun p => (findVal tokens p.1).isNone),
      ∀ it ∈ p.2.submodels, it.submodel_id = s →
        (findVal errors p.1).getD negGenericMsg = M) :
    findVal (mark_failed_negotiations g tokens errors resp).submodelDescriptors
      s =
      if s ∈ (g.filter (fun p => (findVal tokens p.1).isNone)).flatMap
          (fun p => p.2.submodels.map (fun it => it.submodel_id)) then
        (findVal resp.submodelDescriptors s).map (errorify M)
      else findVal resp.submodelDescriptors s := by
  rw [mf_flatten]
  have h := gen_fold_uniform (β := String × SubmodelInfo)
    (fun mi => mi.2.submodel_id) (fun mi => errorify mi.1)
    (fun r mi =>
      { r with
        submodelDescriptors :=
          modVal r.submodelDescriptors mi.2.submodel_id (errorify mi.1) })
    (fun r b => rfl) (errorify M) (errorify_idem M)
    ((g.filter (fun p => (findVal tokens p.1).isNone)).flatMap
      (fun p => p.2.submodels.map
        (fun it => ((findVal errors p.1).getD negGenericMsg, it))))
    resp s ?_
  · rw [h]
    have hcond : (s ∈ ((g.filter (fun p => (findVal tokens p.1).isNone)).flatMap
        (fun p => p.2.submodels.map
          (fun it => ((findVal errors p.1).getD negGenericMsg, it)))).map
        (fun mi => mi.2.submodel_id)) ↔
        s ∈ (g.filter (fun p => (findVal tokens p.1).isNone)).flatMap
          (fun p => p.2.submodels.map (fun it => it.submodel_id)) := by
      constructor
      · intro hx
        obtain ⟨mi, hmi, hkey⟩ := List.mem_map.mp hx
        obtain ⟨p, hp, hmi2⟩ := List.mem_flatMap.mp hmi
        obtain ⟨it, hit, heq⟩ := List.mem_map.mp hmi2
        refine List.mem_flatMap.mpr ⟨p, hp, List.mem_map.mpr ⟨it, hit, ?_⟩⟩
        rw [← heq] at hkey
        exact hkey
      · intro hx
        obtain ⟨p, hp, hmi⟩ := List.mem_flatMap.mp hx
        obtain ⟨it, hit, heq⟩ := List.mem_map.mp hmi
        exact List.mem_map.mpr
          ⟨((findVal errors p.1).getD negGenericMsg, it),
           List.mem_flatMap.mpr ⟨p, hp, List.mem_map.mpr ⟨it, hit, rfl⟩⟩, heq⟩
    by_cases hc : s ∈ (g.filter (fun p => (findVal tokens p.1).isNone)).flatMap
        (fun p => p.2.submodels.map (fun it => it.submodel_id))
    · rw [if_pos (hcond.mpr hc), if_pos hc]
    · rw [if_neg (fun hx => hc (hcond.mp hx)), if_neg hc]
  · intro q hq hkey
    obtain ⟨p, hp, hq2⟩ := List.mem_flatMap.mp hq
    obtain ⟨it, hit, heq⟩ := List.mem_map.mp hq2
    subst heq
    simp only at hkey
    rw [huni p hp it hit hkey]

/-- Lookup after `_fetch_data_parallel` when every tokened item at the key
receives the same fetch transformation. -/
theorem fdp_lookup (env : BatchEnv) (items : List SubmodelInfo)
    (tokens : List (String × String)) (resp : SubmodelsResponse) (s : String)
    (f0 : SubmodelDescriptor → SubmodelDescriptor)
    (hid : ∀ d, f0 (f0 d) = f0 d)
    (huni : ∀ it : SubmodelInfo,
      it ∈ items.filter (fun it => (findVal tokens it.assetId).isSome) →
      it.submodel_id = s →
      (fun d =>
        if jsonTruthy (env.fetchData it.submodel_id it.href
            ((findVal tokens it.assetId).getD "")) then
          { d with status := "success" }
        else errorify "Data fetch returned no data" d) = f0) :
    findVal (fetch_data_parallel env items tokens resp).submodelDescriptors s =
      if s ∈ (items.filter (fun it => (findVal tokens it.assetId).isSome)).map
          (fun it => it.submodel_id) then
        (findVal resp.submodelDescriptors s).map f0
      else findVal resp.submodelDescriptors s := by
  rw [fetch_data_parallel]
  refine gen_fold_uniform (fun it : SubmodelInfo => it.submodel_id)
    (fun (it : SubmodelInfo) (d : SubmodelDescriptor) =>
      if jsonTruthy (env.fetchData it.submodel_id it.href
          ((findVal tokens it.assetId).getD "")) then
        { d with status := "success" }
      else errorify "Data fetch returned no data" d)
    _ ?_ f0 hid _ resp s huni
  intro r b
  by_cases hc : jsonTruthy (env.fetchData b.submodel_id b.href
      ((findVal tokens b.assetId).getD "")) <;> simp [hc]

/-- Lookup after `_mark_remaining_pending_as_failed`: every queued id's
descriptor is pending-failed, other keys untouched. -/
theorem mrp_lookup (items : List SubmodelInfo) (resp : SubmodelsResponse)
    (s : String) :
    findVal
      (mark_remaining_pending_as_failed items resp).submodelDescriptors s =
      if s ∈ items.map (fun it => it.submodel_id) then
        (findVal resp.submodelDescriptors s).map pendFail
      else findVal resp.submodelDescriptors s := by
  rw [mark_remaining_pending_as_failed]
  exact gen_fold_uniform (fun it => it.submodel_id) (fun it => pendFail)
    (fun r it =>
      { r with
        submodelDescriptors :=
          modVal r.submodelDescriptors it.submodel_id
            (fun d =>
              if d.status == "pending" then
                errorify "Processing was not completed" d
              else d) })
    (fun r b => rfl) pendFail pendFail_idem items resp s
    (fun q hq hk => rfl)

/-- `_fetch_submodels_data` with its intermediate pair destructured. -/
theorem fetch_submodels_data_eq (env : BatchEnv) (items : List SubmodelInfo)
    (resp : SubmodelsResponse) :
    fetch_submodels_data env items resp =
      mark_remaining_pending_as_failed items
        (fetch_data_parallel env items
          (negotiate_assets_parallel env (group_submodels_by_asset items)).1
          (mark_failed_negotiations (group_submodels_by_asset items)
            (negotiate_assets_parallel env (group_submodels_by_asset items)).1
            (negotiate_assets_parallel env (group_submodels_by_asset items)).2
            resp)) := by
  rcases hnap : negotiate_assets_parallel env (group_submodels_by_asset items)
    with ⟨tokens, errors⟩
  simp [fetch_submodels_data, hnap]

/-- What the whole `_fetch_submodels_data` pipeline does to the descriptor
stored under one queued item's submodel id, when queued submodel ids are
pairwise distinct: exactly the outcome of that item's own asset negotiation
and data fetch. -/
theorem fetch_submodels_lookup (env : BatchEnv) (items : List SubmodelInfo)
    (resp : SubmodelsResponse) (X : SubmodelInfo) (hX : X ∈ items)
    (hnd : (items.map (fun it => it.submodel_id)).Nodup) :
    findVal (fetch_submodels_data env items resp).submodelDescriptors
        X.submodel_id =
      (findVal resp.submodelDescriptors X.submodel_id).map
        (itemOutcome env X) := by
  obtain ⟨G1, G2, G3, G4⟩ := group_spec items
  have hinj : ∀ it ∈ items, it.submodel_id = X.submodel_id → it = X :=
    fun it hit h => nodup_map_inj _ items hnd it hit X hX h
  rw [fetch_submodels_data_eq, mrp_lookup,
    if_pos (List.mem_map_of_mem _ hX)]
  by_cases hval : X.assetId = "" ∨ X.assetId = "unknown"
  · have hnotkey : X.assetId ∉
        (group_submodels_by_asset items).map Prod.fst := by
      intro hm
      rcases (G3 _).mp hm with ⟨hh1, hh2, _⟩
      rcases hval with h | h
      · exact hh1 h
      · exact hh2 h
    have htokX : findVal (negotiate_assets_parallel env
        (group_submodels_by_asset items)).1 X.assetId = none := by
      rw [nap_tokens_lookup env _ G2, if_neg hnotkey]
    have hXnf : X ∉ items.filter (fun it => (findVal
        (negotiate_assets_parallel env
          (group_submodels_by_asset items)).1 it.assetId).isSome) := by
      intro hm
      have h2 := (List.mem_filter.mp hm).2
      rw [htokX] at h2
      simp at h2
    have hnotfetch : X.submodel_id ∉ (items.filter (fun it => (findVal
        (negotiate_assets_parallel env
          (group_submodels_by_asset items)).1 it.assetId).isSome)).map
        (fun it => it.submodel_id) := by
      intro hm
      obtain ⟨it, hit, hk⟩ := List.mem_map.mp hm
      have heq := hinj it (List.mem_filter.mp hit).1 hk
      rw [heq] at hit
      exact hXnf hit
    have hu : ∀ it : SubmodelInfo,
        it ∈ items.filter (fun it => (findVal
          (negotiate_assets_parallel env
            (group_submodels_by_asset items)).1 it.assetId).isSome) →
        it.submodel_id = X.submodel_id →
        (fun d =>
          if jsonTruthy (env.fetchData it.submodel_id it.href
              ((findVal (negotiate_assets_parallel env
                (group_submodels_by_asset items)).1 it.assetId).getD "")) then
            { d with status := "success" }
          else errorify "Data fetch returned no data" d) = pendFail := by
      intro it hit hk
      have heq := hinj it (List.mem_filter.mp hit).1 hk
      rw [heq] at hit
      exact absurd hit hXnf
    rw [fdp_lookup env items _ _ _ pendFail pendFail_idem hu,
      if_neg hnotfetch]
    have hnm : X.submodel_id ∉
        (((group_submodels_by_asset items).filter
          (fun p => (findVal (negotiate_assets_parallel env
            (group_submodels_by_asset items)).1 p.1).isNone)).flatMap
          (fun p => p.2.submodels.map (fun it => it.submodel_id))) := by
      intro hm
      obtain ⟨p, hp, hm2⟩ := List.mem_flatMap.mp hm
      obtain ⟨it, hit, hk⟩ := List.mem_map.mp hm2
      have hpg : p ∈ group_submodels_by_asset items :=
        (List.mem_filter.mp hp).1
      have hfv : findVal (group_submodels_by_asset items) p.1 = some p.2 :=
        findVal_of_mem_nodup _ G2 p hpg
      have hsub := G4 p.1 p.2 hfv
      rw [hsub] at hit
      have hit2 := List.mem_filter.mp hit
      have haeq : it.assetId = p.1 := by simpa using hit2.2
      have heq := hinj it hit2.1 hk
      have hv := G1 p hpg
      rw [heq] at haeq
      rcases hval with h | h
      · exact hv.1 (by rw [← haeq, h])
      · exact hv.2 (by rw [← haeq, h])
    have hu2 : ∀ p ∈ (group_submodels_by_asset items).filter
        (fun p => (findVal (negotiate_assets_parallel env
          (group_submodels_by_asset items)).1 p.1).isNone),
        ∀ it ∈ p.2.submodels, it.submodel_id = X.submodel_id →
        (findVal (negotiate_assets_parallel env
          (group_submodels_by_asset items)).2 p.1).getD negGenericMsg =
          negGenericMsg := by
      intro p hp it hit hk
      exact absurd
        (List.mem_flatMap.mpr ⟨p, hp, List.mem_map.mpr ⟨it, hit, hk⟩⟩) hnm
    rw [mf_lookup _ _ _ _ _ negGenericMsg hu2, if_neg hnm]
    cases hd : findVal resp.submodelDescriptors X.submodel_id with
    | none => rfl
    | some d =>
      simp only [Option.map_some']
      rw [itemOutcome, if_pos hval]
  · have h1 : X.assetId ≠ "" := fun h => hval (Or.inl h)
    have h2 : X.assetId ≠ "unknown" := fun h => hval (Or.inr h)
    have hkey : X.assetId ∈ (group_submodels_by_asset items).map Prod.fst :=
      (G3 _).mpr ⟨h1, h2, X, hX, rfl⟩
    have htokX : findVal (negotiate_assets_parallel env
        (group_submodels_by_asset items)).1 X.assetId =
        negToken env X.assetId := by
      rw [nap_tokens_lookup env _ G2, if_pos hkey]
    have herrX : findVal (negotiate_assets_parallel env
        (group_submodels_by_asset items)).2 X.assetId =
        negErr env X.assetId := by
      rw [nap_errors_lookup env _ G2, if_pos hkey]
    obtain ⟨info, hfv⟩ : ∃ info,
        findVal (group_submodels_by_asset items) X.assetId = some info :=
      Option.isSome_iff_exists.mp (findVal_isSome_of_mem _ _ hkey)
    have hbucket := G4 _ _ hfv
    have hXb : X ∈ info.submodels := by
      rw [hbucket]
      exact List.mem_filter.mpr ⟨hX, by simp⟩
    have hpmem : (X.assetId, info) ∈ group_submodels_by_asset items :=
      mem_of_findVal _ _ _ hfv
    cases hneg : negToken env X.assetId with
    | none =>
      have htokn : findVal (negotiate_assets_parallel env
          (group_submodels_by_asset items)).1 X.assetId = none := by
        rw [htokX, hneg]
      have hXnf : X ∉ items.filter (fun it => (findVal
          (negotiate_assets_parallel env
            (group_submodels_by_asset items)).1 it.assetId).isSome) := by
        intro hm
        have hmm := (List.mem_filter.mp hm).2
        rw [htokn] at hmm
        simp at hmm
      have hnotfetch : X.submodel_id ∉ (items.filter (fun it => (findVal
          (negotiate_assets_parallel env
            (group_submodels_by_asset items)).1 it.assetId).isSome)).map
          (fun it => it.submodel_id) := by
        intro hm
        obtain ⟨it, hit, hk⟩ := List.mem_map.mp hm
        have heq := hinj it (List.mem_filter.mp hit).1 hk
        rw [heq] at hit
        exact hXnf hit
      have hu : ∀ it : SubmodelInfo,
          it ∈ items.filter (fun it => (findVal
            (negotiate_assets_parallel env
              (group_submodels_by_asset items)).1 it.assetId).isSome) →
          it.submodel_id = X.submodel_id →
          (fun d =>
            if jsonTruthy (env.fetchData it.submodel_id it.href
                ((findVal (negotiate_assets_parallel env
                  (group_submodels_by_asset items)).1 it.assetId).getD ""))
              then { d with status := "success" }
            else errorify "Data fetch returned no data" d) = pendFail := by
        intro it hit hk
        have heq := hinj it (List.mem_filter.mp hit).1 hk
        rw [heq] at hit
        exact absurd hit hXnf
      rw [fdp_lookup env items _ _ _ pendFail pendFail_idem hu,
        if_neg hnotfetch]
      have hmem : X.submodel_id ∈
          (((group_submodels_by_asset items).filter
            (fun p => (findVal (negotiate_assets_parallel env
              (group_submodels_by_asset items)).1 p.1).isNone)).flatMap
            (fun p => p.2.submodels.map (fun it => it.submodel_id))) := by
        refine List.mem_flatMap.mpr ⟨(X.assetId, info),
          List.mem_filter.mpr ⟨hpmem, ?_⟩,
          List.mem_map.mpr ⟨X, hXb, rfl⟩⟩
        simp [htokn]
      have hu2 : ∀ p ∈ (group_submodels_by_asset items).filter
          (fun p => (findVal (negotiate_assets_parallel env
            (group_submodels_by_asset items)).1 p.1).isNone),
          ∀ it ∈ p.2.submodels, it.submodel_id = X.submodel_id →
          (findVal (negotiate_assets_parallel env
            (group_submodels_by_asset items)).2 p.1).getD negGenericMsg =
            negDiag env X.assetId := by
        intro p hp it hit hk
        have hpg : p ∈ group_submodels_by_asset items :=
          (List.mem_filter.mp hp).1
        have hfvp : findVal (group_submodels_by_asset items) p.1 = some p.2 :=
          findVal_of_mem_nodup _ G2 p hpg
        have hsub := G4 p.1 p.2 hfvp
        rw [hsub] at hit
        have hit2 := List.mem_filter.mp hit
        have haeq : it.assetId = p.1 := by simpa using hit2.2
        have heq := hinj it hit2.1 hk
        rw [heq] at haeq
        rw [← haeq, herrX]
        simp [negErr, hneg]
      rw [mf_lookup _ _ _ _ _ (negDiag env X.assetId) hu2, if_pos hmem]
      cases hd : findVal resp.submodelDescriptors X.submodel_id with
      | none => rfl
      | some d =>
        simp only [Option.map_some']
        rw [itemOutcome, if_neg hval, hneg]
    | some t =>
      have htokt : findVal (negotiate_assets_parallel env
          (group_submodels_by_asset items)).1 X.assetId = some t := by
        rw [htokX, hneg]
      have hnm : X.submodel_id ∉
          (((group_submodels_by_asset items).filter
            (fun p => (findVal (negotiate_assets_parallel env
              (group_submodels_by_asset items)).1 p.1).isNone)).flatMap
            (fun p => p.2.submodels.map (fun it => it.submodel_id))) := by
        intro hm
        obtain ⟨p, hp, hm2⟩ := List.mem_flatMap.mp hm
        obtain ⟨it, hit, hk⟩ := List.mem_map.mp hm2
        have hpg : p ∈ group_submodels_by_asset items :=
          (List.mem_filter.mp hp).1
        have hfvp : findVal (group_submodels_by_asset items) p.1 = some p.2 :=
          findVal_of_mem_nodup _ G2 p hpg
        have hsub := G4 p.1 p.2 hfvp
        rw [hsub] at hit
        have hit2 := List.mem_filter.mp hit
        have haeq : it.assetId = p.1 := by simpa using hit2.2
        have heq := hinj it hit2.1 hk
        rw [heq] at haeq
        have hfilt := (List.mem_filter.mp hp).2
        simp only at hfilt
        rw [← haeq, htokt] at hfilt
        simp at hfilt
      have hu2 : ∀ p ∈ (group_submodels_by_asset items).filter
          (fun p => (findVal (negotiate_assets_parallel env
            (group_submodels_by_asset items)).1 p.1).isNone),
          ∀ it ∈ p.2.submodels, it.submodel_id = X.submodel_id →
          (findVal (negotiate_assets_parallel env
            (group_submodels_by_asset items)).2 p.1).getD negGenericMsg =
            negGenericMsg := by
        intro p hp it hit hk
        exact absurd
          (List.mem_flatMap.mpr ⟨p, hp, List.mem_map.mpr ⟨it, hit, hk⟩⟩) hnm
      have hXf : X ∈ items.filter (fun it => (findVal
          (negotiate_assets_parallel env
            (group_submodels_by_asset items)).1 it.assetId).isSome) := by
        refine List.mem_filter.mpr ⟨hX, ?_⟩
        simp [htokt]
      have hid0 : ∀ d,
          (fun d =>
            if jsonTruthy (env.fetchData X.submodel_id X.href t) then
              { d with status := "success" }
            else errorify "Data fetch returned no data" d)
          ((fun d =>
            if jsonTruthy (env.fetchData X.submodel_id X.href t) then
              { d with status := "success" }
            else errorify "Data fetch returned no data" d) d) =
          (fun d =>
            if jsonTruthy (env.fetchData X.submodel_id X.href t) then
              { d with status := "success" }
            else errorify "Data fetch returned no data" d) d := by
        intro d
        by_cases hc : jsonTruthy (env.fetchData X.submodel_id X.href t) <;>
          simp [hc, errorify]
      have hu0 : ∀ it : SubmodelInfo,
          it ∈ items.filter (fun it => (findVal
            (negotiate_assets_parallel env
              (group_submodels_by_asset items)).1 it.assetId).isSome) →
          it.submodel_id = X.submodel_id →
          (fun d =>
            if jsonTruthy (env.fetchData it.submodel_id it.href
                ((findVal (negotiate_assets_parallel env
                  (group_submodels_by_asset items)).1 it.assetId).getD ""))
              then { d with status := "success" }
            else errorify "Data fetch returned no data" d) =
          (fun d =>
            if jsonTruthy (env.fetchData X.submodel_id X.href t) then
              { d with status := "success" }
            else errorify "Data fetch returned no data" d) := by
        intro it hit hk
        have heq := hinj it (List.mem_filter.mp hit).1 hk
        rw [heq, htokt]
        simp
      rw [fdp_lookup env items _ _ _
        (fun d =>
          if jsonTruthy (env.fetchData X.submodel_id X.href t) then
            { d with status := "success" }
          else errorify "Data fetch returned no data" d) hid0 hu0,
        if_pos (List.mem_map_of_mem _ hXf)]
      rw [mf_lookup _ _ _ _ _ negGenericMsg hu2, if_neg hnm]
      cases hd : findVal resp.submodelDescriptors X.submodel_id with
      | none => rfl
      | some d =>
        simp only [Option.map_some']
        rw [itemOutcome, if_neg hval, hneg]

theorem foldl_preserve_submodels {β : Type}
    (step : SubmodelsResponse → β → SubmodelsResponse)
    (hstep : ∀ r b, (step r b).submodels = r.submodels) :
    ∀ (L : List β) (r : SubmodelsResponse),
      (L.foldl step r).submodels = r.submodels := by
  intro L
  induction L with
  | nil => intro r; rfl
  | cons b rest ih =>
    intro r
    rw [List.foldl_cons, ih, hstep]

/-- `_mark_failed_negotiations` never touches the fetched-data map. -/
theorem mf_submodels (g : List (String × AssetInfo))
    (tokens errors : List (String × String)) (resp : SubmodelsResponse) :
    (mark_failed_negotiations g tokens errors resp).submodels =
      resp.submodels := by
  rw [mf_flatten]
  refine foldl_preserve_submodels _ ?_ _ resp
  intro r b
  rfl

/-- `_mark_remaining_pending_as_failed` never touches the fetched-data map. -/
theorem mrp_submodels (items : List SubmodelInfo) (resp : SubmodelsResponse) :
    (mark_remaining_pending_as_failed items resp).submodels =
      resp.submodels := by
  rw [mark_remaining_pending_as_failed]
  refine foldl_preserve_submodels _ ?_ items resp
  intro r b
  rfl

/-- Data lookup after `_fetch_data_parallel`. -/
theorem fdp_submodels_lookup (env : BatchEnv) (items : List SubmodelInfo)
    (tokens : List (String × String)) (resp : SubmodelsResponse) (s : String)
    (j0 : Option Json)
    (huni : ∀ it : SubmodelInfo,
      it ∈ items.filter (fun it => (findVal tokens it.assetId).isSome) →
      it.submodel_id = s →
      (if jsonTruthy (env.fetchData it.submodel_id it.href
          ((findVal tokens it.assetId).getD "")) then
        some ((env.fetchData it.submodel_id it.href
          ((findVal tokens it.assetId).getD "")).getD ⟨[]⟩)
      else none) = j0) :
    findVal (fetch_data_parallel env items tokens resp).submodels s =
      if s ∈ (items.filter (fun it => (findVal tokens it.assetId).isSome)).map
          (fun it => it.submodel_id) then
        (match j0 with
         | some j => some j
         | none => findVal resp.submodels s)
      else findVal resp.submodels s := by
  rw [fetch_data_parallel]
  refine Eq.trans (gen_fold_submodels (fun it : SubmodelInfo => it.submodel_id)
    (fun it : SubmodelInfo =>
      if jsonTruthy (env.fetchData it.submodel_id it.href
          ((findVal tokens it.assetId).getD "")) then
        some ((env.fetchData it.submodel_id it.href
          ((findVal tokens it.assetId).getD "")).getD ⟨[]⟩)
      else none)
    _ ?_ j0 _ resp s huni) ?_
  · intro r b
    by_cases hc : jsonTruthy (env.fetchData b.submodel_id b.href
        ((findVal tokens b.assetId).getD "")) <;> simp [hc]
  · cases j0 <;> rfl

/-- An item with a falsy or sentinel asset id never stores data: the fetched
map is unchanged at its submodel id. -/
theorem fsd_submodels_unknown (env : BatchEnv) (items : List SubmodelInfo)
    (resp : SubmodelsResponse) (X : SubmodelInfo) (hX : X ∈ items)
    (hnd : (items.map (fun it => it.submodel_id)).Nodup)
    (hval : X.assetId = "" ∨ X.assetId = "unknown") :
    findVal (fetch_submodels_data env items resp).submodels X.submodel_id =
      findVal resp.submodels X.submodel_id := by
  obtain ⟨G1, G2, G3, G4⟩ := group_spec items
  have hinj : ∀ it ∈ items, it.submodel_id = X.submodel_id → it = X :=
    fun it hit h => nodup_map_inj _ items hnd it hit X hX h
  rw [fetch_submodels_data_eq, mrp_submodels]
  have hnotkey : X.assetId ∉
      (group_submodels_by_asset items).map Prod.fst := by
    intro hm
    rcases (G3 _).mp hm with ⟨hh1, hh2, _⟩
    rcases hval with h | h
    · exact hh1 h
    · exact hh2 h
  have htokX : findVal (negotiate_assets_parallel env
      (group_submodels_by_asset items)).1 X.assetId = none := by
    rw [nap_tokens_lookup env _ G2, if_neg hnotkey]
  have hXnf : X ∉ items.filter (fun it => (findVal
      (negotiate_assets_parallel env
        (group_submodels_by_asset items)).1 it.assetId).isSome) := by
    intro hm
    have h2 := (List.mem_filter.mp hm).2
    rw [htokX] at h2
    simp at h2
  have hnotfetch : X.submodel_id ∉ (items.filter (fun it => (findVal
      (negotiate_assets_parallel env
        (group_submodels_by_asset items)).1 it.assetId).isSome)).map
      (fun it => it.submodel_id) := by
    intro hm
    obtain ⟨it, hit, hk⟩ := List.mem_map.mp hm
    have heq := hinj it (List.mem_filter.mp hit).1 hk
    rw [heq] at hit
    exact hXnf hit
  have hu : ∀ it : SubmodelInfo,
      it ∈ items.filter (fun it => (findVal
        (negotiate_assets_parallel env
          (group_submodels_by_asset items)).1 it.assetId).isSome) →
      it.submodel_id = X.submodel_id →
      (if jsonTruthy (env.fetchData it.submodel_id it.href
          ((findVal (negotiate_assets_parallel env
            (group_submodels_by_asset items)).1 it.assetId).getD "")) then
        some ((env.fetchData it.submodel_id it.href
          ((findVal (negotiate_assets_parallel env
            (group_submodels_by_asset items)).1 it.assetId).getD "")).getD
          ⟨[]⟩)
      else none) = none := by
    intro it hit hk
    have heq := hinj it (List.mem_filter.mp hit).1 hk
    rw [heq] at hit
    exact absurd hit hXnf
  rw [fdp_submodels_lookup env items _ _ _ none hu, if_neg hnotfetch,
    mf_submodels]

/-! ## Descriptor building in `discover_submodels` -/

theorem bd_nil (governance : Option (List (String × List Policy)))
    (resp : SubmodelsResponse) (queue : List SubmodelInfo) :
    build_descriptors governance [] resp queue = (resp, queue) := rfl

theorem bd_cons (governance : Option (List (String × List Policy)))
    (x : Submodel) (rest : List Submodel) (resp : SubmodelsResponse)
    (queue : List SubmodelInfo) :
    build_descriptors governance (x :: rest) resp queue =
      build_descriptors governance rest
        { resp with
          submodelDescriptors :=
            setVal resp.submodelDescriptors
              (build_descriptor governance x).submodelId
              (build_descriptor governance x) }
        (if govTruthy governance &&
            (build_descriptor governance x).status == "pending" then
          queue ++ [build_queue_item governance x]
        else queue) := rfl

theorem bd_submodelId (governance : Option (List (String × List Policy)))
    (sd : Submodel) :
    (build_descriptor governance sd).submodelId = sd.id.getD "unknown" := rfl

theorem bd_status (governance : Option (List (String × List Policy)))
    (sd : Submodel) :
    (build_descriptor governance sd).status =
      determine_submodel_status (extract_semantic_id sd) governance := rfl

theorem bqi_submodel_id (governance : Option (List (String × List Policy)))
    (sd : Submodel) :
    (build_queue_item governance sd).submodel_id = sd.id.getD "unknown" := rfl

theorem bqi_assetId (governance : Option (List (String × List Policy)))
    (sd : Submodel) :
    (build_queue_item governance sd).assetId =
      (extract_submodel_endpoint_info sd).1 := rfl

/-- The queue built by the descriptor loop: one entry per governed pending
descriptor, in shell order. -/
theorem bd_queue (governance : Option (List (String × List Policy))) :
    ∀ (sds : List Submodel) (resp : SubmodelsResponse)
      (queue : List SubmodelInfo),
      (build_descriptors governance sds resp queue).2 =
        queue ++ (sds.filter (fun sd => govTruthy governance &&
          (build_descriptor governance sd).status == "pending")).map
          (build_queue_item governance) := by
  intro sds
  induction sds with
  | nil => intro resp queue; simp [bd_nil]
  | cons x rest ih =>
    intro resp queue
    rw [bd_cons, ih]
    cases hc : (govTruthy governance &&
        ((build_descriptor governance x).status == "pending")) with
    | true => simp [hc, List.filter_cons, List.append_assoc]
    | false => simp [hc, List.filter_cons]

/-- The descriptor loop leaves keys other than the listed ids alone. -/
theorem bd_frame (governance : Option (List (String × List Policy))) :
    ∀ (sds : List Submodel) (resp : SubmodelsResponse)
      (queue : List SubmodelInfo) (s : String),
      s ∉ sds.map (fun x => x.id.getD "unknown") →
      findVal (build_descriptors governance sds
          resp queue).1.submodelDescriptors s =
        findVal resp.submodelDescriptors s := by
  intro sds
  induction sds with
  | nil => intro resp queue s h; rfl
  | cons x rest ih =>
    intro resp queue s h
    rw [List.map_cons] at h
    have h2 := h
    simp only [List.mem_cons, not_or] at h2
    rw [bd_cons, ih _ _ s h2.2]
    show findVal (setVal resp.submodelDescriptors
      (build_descriptor governance x).submodelId
      (build_descriptor governance x)) s = _
    rw [findVal_setVal, bd_submodelId, if_neg (fun hc => h2.1 hc.symm)]

/-- With pairwise-distinct submodel ids, the stored descriptor under a listed
id is exactly the one built for its submodel. -/
theorem bd_lookup_nodup (governance : Option (List (String × List Policy))) :
    ∀ (sds : List Submodel) (resp : SubmodelsResponse)
      (queue : List SubmodelInfo) (sd : Submodel),
      sd ∈ sds →
      (sds.map (fun x => x.id.getD "unknown")).Nodup →
      findVal (build_descriptors governance sds
          resp queue).1.submodelDescriptors (sd.id.getD "unknown") =
        some (build_descriptor governance sd) := by
  intro sds
  induction sds with
  | nil => intro resp queue sd h; simp at h
  | cons x rest ih =>
    intro resp queue sd hmem hnd
    rw [List.map_cons, List.nodup_cons] at hnd
    rcases List.mem_cons.mp hmem with hh | hh
    · rw [bd_cons]
      rw [bd_frame governance rest _ _ _ (by rw [hh]; exact hnd.1)]
      show findVal (setVal resp.submodelDescriptors
        (build_descriptor governance x).submodelId
        (build_descriptor governance x)) (sd.id.getD "unknown") = _
      rw [findVal_setVal, bd_submodelId, if_pos (by rw [hh])]
      rw [hh]
    · rw [bd_cons]
      exact ih _ _ sd hh hnd.2

/-- The descriptor loop never touches the fetched-data map. -/
theorem bd_submodels (governance : Option (List (String × List Policy))) :
    ∀ (sds : List Submodel) (resp : SubmodelsResponse)
      (queue : List SubmodelInfo),
      (build_descriptors governance sds resp queue).1.submodels =
        resp.submodels := by
  intro sds
  induction sds with
  | nil => intro resp queue; rfl
  | cons x rest ih =>
    intro resp queue
    rw [bd_cons, ih]

/-- Without a `SUBMODEL-3.0` endpoint the whole triple is the sentinel. -/
theorem endpoint_info_loop_none :
    ∀ (eps : List Endpoint),
      (∀ ep ∈ eps,
        strContains (ep.interface.getD "") "SUBMODEL-3.0" = false) →
      endpoint_info_loop eps = ("unknown", "unknown", "unknown") := by
  intro eps
  induction eps with
  | nil => intro h; rfl
  | cons e rest ih =>
    intro h
    rw [endpoint_info_loop]
    rw [if_neg (by rw [h e (List.mem_cons_self _ _)]; simp)]
    exact ih (fun ep hep => h ep (List.mem_cons_of_mem _ hep))

/-- Witness for `C8_found_count_and_map_size` at a shell with two distinct
submodel ids. -/
theorem C8_found_count_and_map_size_witness :
    (discover_submodels envIdle
      (.ok (shellDistinct, dtrInfoW)) none).submodelsFound =
      shellDistinct.submodelDescriptors.length ∧
    (discover_submodels envIdle
      (.ok (shellDistinct, dtrInfoW)) none).submodelDescriptors.length =
      shellDistinct.submodelDescriptors.length :=
  ⟨(C8_found_count_and_map_size envIdle shellDistinct dtrInfoW none).1,
   (C8_found_count_and_map_size envIdle shellDistinct dtrInfoW none).2.2
     (by decide)⟩

/-- Witness for `C3_limit_zero_behaves_as_unbounded` at the concrete
one-DTR run and the cursor `pC3` (which carries `limit = 1`). -/
theorem C3_limit_zero_behaves_as_unbounded_witness :
    (discover_shells envC3 cfgQuiet stOneDtr "BPN1" [] none (some 0)
        none).1.shellsFound =
      (discover_shells envC3 cfgQuiet stOneDtr "BPN1" [] none none
        none).1.shellsFound ∧
    pC3.limit ≠ some 0 ∧
    ((get_dtrs envC3.disc cfgQuiet stOneDtr "BPN1").1.getD []).isEmpty = false ∧
    (discover_shells envC3 cfgQuiet stOneDtr "BPN1" [] none (some 0)
        (some pC3)).1.error = some (limit_mismatch_msg pC3.limit (some 0)) :=
  ⟨(C3_limit_zero_behaves_as_unbounded envC3 cfgQuiet stOneDtr "BPN1" []
      none).1.2.2,
   by decide, by decide,
   (C3_limit_zero_behaves_as_unbounded envC3 cfgQuiet stOneDtr "BPN1" []
      none).2 pC3 (by decide) (by decide)⟩

/-- C6: in `discover_submodels`, queued pending items are grouped by asset
id with pairwise-distinct keys (exactly the valid asset ids carried by
queued items), each distinct asset id is negotiated exactly once (the
token/error looked up for a grouped asset is the outcome of its single
negotiation), and — when queued submodel ids are pairwise distinct — every
item of an asset whose negotiation fails ends error with that asset's one
diagnostic, while every item of a negotiated asset receives its individual
fetch outcome under the single token; items of other assets are untouched
by either. -/
theorem C6_per_asset_negotiation (env : BatchEnv) (items : List SubmodelInfo)
    (resp : SubmodelsResponse)
    (hnd : (items.map (fun it => it.submodel_id)).Nodup) :
    ((group_submodels_by_asset items).map Prod.fst).Nodup ∧
    (∀ a, a ∈ (group_submodels_by_asset items).map Prod.fst ↔
      (a ≠ "" ∧ a ≠ "unknown" ∧ ∃ it ∈ items, it.assetId = a)) ∧
    (∀ a, a ∈ (group_submodels_by_asset items).map Prod.fst →
      findVal (negotiate_assets_parallel env
        (group_submodels_by_asset items)).1 a = negToken env a ∧
      findVal (negotiate_assets_parallel env
        (group_submodels_by_asset items)).2 a = negErr env a) ∧
    (∀ X ∈ items, X.assetId ≠ "" → X.assetId ≠ "unknown" →
      (negToken env X.assetId = none →
        findVal (fetch_submodels_data env items resp).submodelDescriptors
            X.submodel_id =
          (findVal resp.submodelDescriptors X.submodel_id).map
            (fun d => pendFail (errorify (negDiag env X.assetId) d))) ∧
      (∀ t, negToken env X.assetId = some t →
        findVal (fetch_submodels_data env items resp).submodelDescriptors
            X.submodel_id =
          (findVal resp.submodelDescriptors X.submodel_id).map
            (fun d => pendFail
              (if jsonTruthy (env.fetchData X.submodel_id X.href t) then
                { d with status := "success" }
              else errorify "Data fetch returned no data" d)))) := by
  obtain ⟨G1, G2, G3, G4⟩ := group_spec items
  refine ⟨G2, G3, ?_, ?_⟩
  · intro a ha
    constructor
    · rw [nap_tokens_lookup env _ G2, if_pos ha]
    · rw [nap_errors_lookup env _ G2, if_pos ha]
  · intro X hX h1 h2
    constructor
    · intro hneg
      rw [fetch_submodels_lookup env items resp X hX hnd]
      cases hd : findVal resp.submodelDescriptors X.submodel_id with
      | none => rfl
      | some d =>
        simp only [Option.map_some']
        rw [itemOutcome, if_neg (by rintro (h | h); exacts [h1 h, h2 h]),
          hneg]
    · intro t hneg
      rw [fetch_submodels_lookup env items resp X hX hnd]
      cases hd : findVal resp.submodelDescriptors X.submodel_id with
      | none => rfl
      | some d =>
        simp only [Option.map_some']
        rw [itemOutcome, if_neg (by rintro (h | h); exacts [h1 h, h2 h]),
          hneg]

/-- Witness for `C6_per_asset_negotiation`: two queued items on distinct
assets; `A1`'s negotiation raises so `sm1` gets the concatenated diagnostic,
while `A2` negotiates and `sm2` gets its own fetch outcome. -/
theorem C6_per_asset_negotiation_witness :
    ((group_submodels_by_asset [itemW1, itemW2]).map Prod.fst).Nodup ∧
    findVal (fetch_submodels_data envW [itemW1, itemW2]
        respW).submodelDescriptors itemW1.submodel_id =
      (findVal respW.submodelDescriptors itemW1.submodel_id).map
        (fun d => pendFail (errorify (negDiag envW itemW1.assetId) d)) ∧
    findVal (fetch_submodels_data envW [itemW1, itemW2]
        respW).submodelDescriptors itemW2.submodel_id =
      (findVal respW.submodelDescriptors itemW2.submodel_id).map
        (fun d => pendFail
          (if jsonTruthy (envW.fetchData itemW2.submodel_id itemW2.href
              "tokB") then
            { d with status := "success" }
          else errorify "Data fetch returned no data" d)) :=
  ⟨(C6_per_asset_negotiation envW [itemW1, itemW2] respW (by decide)).1,
   ((C6_per_asset_negotiation envW [itemW1, itemW2] respW
      (by decide)).2.2.2 itemW1 (by decide) (by decide) (by decide)).1
     (by decide),
   ((C6_per_asset_negotiation envW [itemW1, itemW2] respW
      (by decide)).2.2.2 itemW2 (by decide) (by decide) (by decide)).2
     "tokB" (by decide)⟩

/-- C10: in `discover_submodels`, a governed pending submodel descriptor
without any `SUBMODEL-3.0` endpoint gets the sentinel asset id `unknown`, is
silently excluded from asset grouping (hence from negotiation and fetching;
no data is stored for it), and its final descriptor is `error` with the
generic message `Processing was not completed` rather than a diagnostic
naming the missing endpoint. -/
theorem C10_missing_endpoint_silent_failure (env : BatchEnv) (shell : Shell)
    (dtri : DtrInfo) (governance : Option (List (String × List Policy)))
    (sd : Submodel)
    (hmem : sd ∈ shell.submodelDescriptors)
    (hnoep : ∀ ep ∈ sd.endpoints,
      strContains (ep.interface.getD "") "SUBMODEL-3.0" = false)
    (hpend : determine_submodel_status (extract_semantic_id sd) governance =
      "pending")
    (hgov : govTruthy governance = true)
    (hnd : (shell.submodelDescriptors.map
      (fun x => x.id.getD "unknown")).Nodup) :
    (extract_submodel_endpoint_info sd).1 = "unknown" ∧
    (∀ q : List SubmodelInfo,
      "unknown" ∉ (group_submodels_by_asset q).map Prod.fst) ∧
    findVal (discover_submodels env (.ok (shell, dtri))
        governance).submodelDescriptors (sd.id.getD "unknown") =
      some (errorify "Processing was not completed"
        (build_descriptor governance sd)) ∧
    findVal (discover_submodels env (.ok (shell, dtri))
        governance).submodels (sd.id.getD "unknown") = none := by
  have hep : extract_submodel_endpoint_info sd =
      ("unknown", "unknown", "unknown") := by
    rw [extract_submodel_endpoint_info]
    exact endpoint_info_loop_none sd.endpoints hnoep
  have hgrp : ∀ q : List SubmodelInfo,
      "unknown" ∉ (group_submodels_by_asset q).map Prod.fst := by
    intro q hm
    rcases ((group_spec q).2.2.1 _).mp hm with ⟨_, h2, _⟩
    exact h2 rfl
  refine ⟨by rw [hep], hgrp, ?_⟩
  have hne : shell.submodelDescriptors.isEmpty = false := by
    cases hsds : shell.submodelDescriptors with
    | nil => rw [hsds] at hmem; simp at hmem
    | cons a l => rfl
  unfold discover_submodels
  simp only [hne, Bool.false_eq_true, if_false]
  cases hb : build_descriptors governance shell.submodelDescriptors
      { submodelDescriptors := [], submodels := [], submodelsFound := 0,
        dtr := some dtri, error := none } [] with
  | mk resp1 queue =>
    have hq : queue = (shell.submodelDescriptors.filter
        (fun x => govTruthy governance &&
          (build_descriptor governance x).status == "pending")).map
        (build_queue_item governance) := by
      have h := bd_queue governance shell.submodelDescriptors
        { submodelDescriptors := [], submodels := [], submodelsFound := 0,
          dtr := some dtri, error := none } []
      rw [hb] at h
      simpa using h
    have hsdf : sd ∈ shell.submodelDescriptors.filter
        (fun x => govTruthy governance &&
          (build_descriptor governance x).status == "pending") := by
      refine List.mem_filter.mpr ⟨hmem, ?_⟩
      simp [hgov, bd_status, hpend]
    have hXq : build_queue_item governance sd ∈ queue := by
      rw [hq]
      exact List.mem_map_of_mem _ hsdf
    have hqne : queue.isEmpty = false := by
      cases hqq : queue with
      | nil => rw [hqq] at hXq; simp at hXq
      | cons a l => rfl
    simp only [hqne, Bool.false_eq_true, if_false]
    have hqids : queue.map (fun it => it.submodel_id) =
        (shell.submodelDescriptors.filter
          (fun x => govTruthy governance &&
            (build_descriptor governance x).status == "pending")).map
          (fun x => x.id.getD "unknown") := by
      rw [hq, List.map_map]
      rfl
    have hndq : (queue.map (fun it => it.submodel_id)).Nodup := by
      rw [hqids]
      exact hnd.sublist
        (List.Sublist.map _ (List.filter_sublist shell.submodelDescriptors))
    have hXsid : (build_queue_item governance sd).submodel_id =
        sd.id.getD "unknown" := rfl
    have hXasset : (build_queue_item governance sd).assetId = "unknown" := by
      rw [bqi_assetId, hep]
    have hr1 : findVal resp1.submodelDescriptors (sd.id.getD "unknown") =
        some (build_descriptor governance sd) := by
      have h := bd_lookup_nodup governance shell.submodelDescriptors
        { submodelDescriptors := [], submodels := [], submodelsFound := 0,
          dtr := some dtri, error := none } [] sd hmem hnd
      rw [hb] at h
      exact h
    have hr1s : resp1.submodels = [] := by
      have h := bd_submodels governance shell.submodelDescriptors
        { submodelDescriptors := [], submodels := [], submodelsFound := 0,
          dtr := some dtri, error := none } []
      rw [hb] at h
      exact h
    constructor
    · show findVal (fetch_submodels_data env queue
        resp1).submodelDescriptors (sd.id.getD "unknown") = _
      have h := fetch_submodels_lookup env queue resp1
        (build_queue_item governance sd) hXq hndq
      rw [hXsid] at h
      rw [h, hr1]
      simp only [Option.map_some']
      congr 1
      rw [itemOutcome, if_pos (Or.inr hXasset), pendFail,
        if_pos (show ((build_descriptor governance sd).status == "pending")
          = true by rw [bd_status, hpend]; rfl)]
    · show findVal (fetch_submodels_data env queue
        resp1).submodels (sd.id.getD "unknown") = none
      have h := fsd_submodels_unknown env queue resp1
        (build_queue_item governance sd) hXq hndq (Or.inr hXasset)
      rw [hXsid] at h
      rw [h, hr1s]
      rfl

/-- Witness for `C10_missing_endpoint_silent_failure`: the governed
endpoint-less descriptor `sdNoEp` in `shellNoEp`. -/
theorem C10_missing_endpoint_silent_failure_witness :
    findVal (discover_submodels envIdle (.ok (shellNoEp, dtrInfoW))
        govNoEp).submodelDescriptors (sdNoEp.id.getD "unknown") =
      some (errorify "Processing was not completed"
        (build_descriptor govNoEp sdNoEp)) ∧
    findVal (discover_submodels envIdle (.ok (shellNoEp, dtrInfoW))
        govNoEp).submodels (sdNoEp.id.getD "unknown") = none :=
  ⟨(C10_missing_endpoint_silent_failure envIdle shellNoEp dtrInfoW govNoEp
      sdNoEp (by decide) (by decide) (by decide) (by decide)
      (by decide)).2.2.1,
   (C10_missing_endpoint_silent_failure envIdle shellNoEp dtrInfoW govNoEp
      sdNoEp (by decide) (by decide) (by decide) (by decide)
      (by decide)).2.2.2⟩

end IchubDtr
